import Mathlib

/-!
# WarheadCore Warden: anti-cheat engine and check repository

A shallow embedding of `src/server/game/Warden/Warden.cpp` and
`src/server/game/Warden/WardenCheckMgr.cpp`.

Conventions of the embedding:

* bytes and machine integers are `Nat`; where a C++ operation can overflow its
  width the reduction `% 2^w` is written out;
* `std::string` is `String`, byte buffers are `List Nat`;
* calls to collaborators (session, ban manager, packet send) are recorded as a
  list of `Effect`s in program order;
* configuration lookups (`sGameConfig`) read a `Config` record.
-/

namespace Warden

/-! ## Constants and configuration -/

/-- Number of values of a `uint32`. -/
def UINT32 : Nat := 4294967296

/-- Number of values of a `uint16`. -/
def UINT16 : Nat := 65536

/-- Modelled from the spec: the constant `IN_MILLISECONDS` is declared in a
header outside the given sources; it is the number of milliseconds in a second. -/
def IN_MILLISECONDS : Nat := 1000

/-- Modelled from the spec: the enum `WardenActions` is declared in a header
outside the given sources; its values are 0-2 (see `LoadWardenOverrides`), in
the order Log, Kick, Ban. This is the enumerator `WARDEN_ACTION_LOG`. -/
def WARDEN_ACTION_LOG : Nat := 0

/-- Modelled from the spec: the enumerator `WARDEN_ACTION_KICK` of `WardenActions`. -/
def WARDEN_ACTION_KICK : Nat := 1

/-- Modelled from the spec: the enumerator `WARDEN_ACTION_BAN` of `WardenActions`,
the largest allowed action. -/
def WARDEN_ACTION_BAN : Nat := 2

/-- The values `sGameConfig` answers for the keys the engine reads. -/
structure Config where
  /-- Value of `GetBoolConfig("Warden.Enabled")` -/
  WardenEnabled : Bool
  /-- Value of `GetIntConfig("Warden.ClientResponseDelay")`, in seconds -/
  ClientResponseDelay : Nat
  /-- Value of `GetIntConfig("Warden.ClientCheckFailAction")` -/
  ClientCheckFailAction : Nat
  /-- Value of `GetIntConfig("Warden.BanDuration")` -/
  BanDuration : Nat
deriving DecidableEq, Repr

/-- Calls made to the collaborators of the engine, in program order. -/
inductive Effect where
  /-- The call `_session->KickPlayer(reason)` -/
  | KickPlayer (reason : String)
  /-- The call `sBan->BanAccount(accountName, duration, reason, author)` -/
  | BanAccount (accountName : String) (duration : Nat) (reason : String) (author : String)
  /-- The call `_session->SendPacket(&pkt)` with the bytes appended to `pkt` -/
  | SendPacket (bytes : List Nat)
deriving DecidableEq, Repr

/-! ## Module transfer (`Warden::SendModuleToClient`) -/

/-- The fields of `ClientWardenModule` read by `SendModuleToClient`. -/
structure ClientWardenModule where
  CompressedData : List Nat
  CompressedSize : Nat
deriving DecidableEq, Repr

/-- The packed wire struct `WardenModuleTransfer`: `uint8 Command`,
`uint16 DataSize`, `uint8 Data[500]`. -/
structure WardenModuleTransfer where
  Command : Nat
  DataSize : Nat
  Data : List Nat
deriving DecidableEq, Repr

/-- Opcode `WARDEN_SMSG_MODULE_CACHE`, declared outside the given sources; the
claims proved below hold for every value of it. -/
structure Opcodes where
  WARDEN_SMSG_MODULE_CACHE : Nat
deriving DecidableEq, Repr

/-- The call `memcpy(dst, src, n)`: the first `n` bytes of `dst` are replaced by the
first `n` bytes of `src`. -/
def memcpy (dst src : List Nat) (n : Nat) : List Nat :=
  src.take n ++ dst.drop n

/-- The bytes of a `WardenModuleTransfer` in memory order, `DataSize` already
converted to little-endian by `EndianConvert`. -/
def WardenModuleTransfer.bytes (p : WardenModuleTransfer) : List Nat :=
  p.Command % 256 :: p.DataSize % 256 :: p.DataSize / 256 % 256 :: p.Data

/-- One fragment handed to `EncryptData` and then to `SendPacket`: the first
`burstSize + 3` bytes of the packet struct, before encryption. -/
structure Fragment where
  burstSize : Nat
  plain : List Nat
deriving DecidableEq, Repr

/-- The payload bytes a fragment carries (what follows the 3-byte header). -/
def Fragment.payload (f : Fragment) : List Nat := f.plain.drop 3

/-- The `while (sizeLeft > 0)` loop of `SendModuleToClient`. `packet` is the
local struct reused by every iteration; `sizeLeft` and `pos` are `uint32`,
`burstSize` is `uint16`. -/
def sendLoop (op : Opcodes) (data : List Nat) (packet : WardenModuleTransfer)
    (sizeLeft pos : Nat) : List Fragment :=
  if _h : sizeLeft > 0 then
    let burstSize := (if sizeLeft < 500 then sizeLeft else 500) % UINT16
    let packet1 : WardenModuleTransfer :=
      { Command := op.WARDEN_SMSG_MODULE_CACHE
        DataSize := burstSize
        Data := memcpy packet.Data (data.drop pos) burstSize }
    { burstSize := burstSize, plain := packet1.bytes.take (burstSize + 3) } ::
      sendLoop op data packet1 ((sizeLeft + (UINT32 - burstSize)) % UINT32)
        ((pos + burstSize) % UINT32)
  else []
termination_by sizeLeft
decreasing_by
  simp only [UINT16, UINT32]
  split <;> omega

/-- The method `Warden::SendModuleToClient`: the fragments emitted, in sending order.
`packet0` is the content of the not yet initialised local `packet`. -/
def SendModuleToClient (op : Opcodes) (m : ClientWardenModule)
    (packet0 : WardenModuleTransfer) : List Fragment :=
  sendLoop op m.CompressedData packet0 (m.CompressedSize % UINT32) 0

/-! ## Engine state and the periodic tick (`Warden::Update`) -/

/-- The members of `Warden` read or written by `Update`. -/
structure WardenState where
  _checkTimer : Nat
  _clientResponseTimer : Nat
  _dataSent : Bool
  _initialized : Bool
deriving DecidableEq, Repr

/-- The constructor `Warden::Warden()`: `_checkTimer(10 * IN_MILLISECONDS)`,
`_clientResponseTimer(0)`, `_dataSent(false)`, `_initialized(false)`. -/
def WardenState.new : WardenState :=
  { _checkTimer := 10 * IN_MILLISECONDS
    _clientResponseTimer := 0
    _dataSent := false
    _initialized := false }

/-- Subtraction of `uint32` values, `a -= b`. -/
def subU32 (a b : Nat) : Nat := (a + (UINT32 - b % UINT32)) % UINT32

/-- The reason string `Update` passes to `KickPlayer`. -/
def updateKickReason : String := "Warden::Update Warden module response delay exceeded"

/-- The method `Warden::Update(uint32 diff)`. `RequestChecks` is the pure virtual member
implemented by the platform subclasses, given here as a parameter. The result
is the new engine state and the collaborator calls made by this tick. -/
def Update (cfg : Config) (RequestChecks : WardenState → WardenState × List Effect)
    (w : WardenState) (diff : Nat) : WardenState × List Effect :=
  if !w._initialized then (w, [])
  else if w._dataSent then
    let maxClientResponseDelay := cfg.ClientResponseDelay
    if maxClientResponseDelay > 0 then
      -- Kick player if client response delays more than set in config
      if w._clientResponseTimer > (maxClientResponseDelay * IN_MILLISECONDS) % UINT32 then
        (w, [Effect.KickPlayer updateKickReason])
      else
        ({ w with _clientResponseTimer := subU32 w._clientResponseTimer diff }, [])
    else (w, [])
  else
    if diff ≥ w._checkTimer then RequestChecks w
    else ({ w with _checkTimer := subU32 w._checkTimer diff }, [])

/-- A sequence of ticks with no message in between: `Update` is called once for
each element of `diffs`, the collaborator calls are collected in order. -/
def runUpdates (cfg : Config) (RequestChecks : WardenState → WardenState × List Effect)
    (w : WardenState) : List Nat → WardenState × List Effect
  | [] => (w, [])
  | diff :: rest =>
    let r := Update cfg RequestChecks w diff
    let r2 := runUpdates cfg RequestChecks r.1 rest
    (r2.1, r.2 ++ r2.2)

/-- Whether a collaborator call is a `KickPlayer`. -/
def Effect.isKick : Effect → Bool
  | Effect.KickPlayer _ => true
  | _ => false

/-- Whether a collaborator call is a `BanAccount`. -/
def Effect.isBan : Effect → Bool
  | Effect.BanAccount _ _ _ _ => true
  | _ => false

/-- Number of `KickPlayer` calls in a list of collaborator calls. -/
def kickCount (es : List Effect) : Nat := es.countP Effect.isKick

/-- Number of `BanAccount` calls in a list of collaborator calls. -/
def banCount (es : List Effect) : Nat := es.countP Effect.isBan

/-- Modelled from the spec: the session runtime that calls `Warden::Update` on
every tick is not in the given sources. By the cancellation model of the spec
(section 5), termination of the session by a kick stops further ticks from
being delivered to the engine: the ticks of `diffs` are delivered in order
until one of them kicks the session, and the rest are never delivered. -/
def deliverTicks (cfg : Config) (RequestChecks : WardenState → WardenState × List Effect)
    (w : WardenState) : List Nat → WardenState × List Effect
  | [] => (w, [])
  | diff :: rest =>
    let r := Update cfg RequestChecks w diff
    if r.2.any Effect.isKick then r
    else
      let r2 := deliverTicks cfg RequestChecks r.1 rest
      (r2.1, r.2 ++ r2.2)

/-! ## Checksum (`Warden::BuildChecksum`, `Warden::IsValidCheckSum`) -/

/-- Element `i` of `hash.ints.ints`: the `uint32` that overlays bytes
`4i .. 4i+3` of `hash.bytes.bytes` in the union `keyData` (little-endian host). -/
def keyData.ints (bytes : List Nat) (i : Nat) : Nat :=
  (bytes.getD (4 * i) 0 % 256
    + 256 * (bytes.getD (4 * i + 1) 0 % 256)
    + 65536 * (bytes.getD (4 * i + 2) 0 % 256)
    + 16777216 * (bytes.getD (4 * i + 3) 0 % 256)) % UINT32

/-- The `for (uint8 i = 0; i < 5; ++i)` loop of `BuildChecksum`, from index `i`
with `n` iterations left. -/
def checksumLoop (hash : List Nat) : Nat → Nat → Nat → Nat
  | 0, _, checkSum => checkSum
  | n + 1, i, checkSum => checksumLoop hash n (i + 1) (checkSum ^^^ keyData.ints hash i)

/-- The method `Warden::BuildChecksum(data, length)`. `SHA1` is the OpenSSL digest, a
parameter of the embedding; it is applied to the first `length` bytes at `data`. -/
def BuildChecksum (SHA1 : List Nat → List Nat) (data : List Nat) (length : Nat) : Nat :=
  let hash := SHA1 (data.take length)
  checksumLoop hash 5 0 0

/-- The method `Warden::IsValidCheckSum(checksum, data, length)`; `length` is a `uint16`. -/
def IsValidCheckSum (SHA1 : List Nat → List Nat) (checksum : Nat) (data : List Nat)
    (length : Nat) : Bool :=
  let newChecksum := BuildChecksum SHA1 data (length % UINT16)
  if checksum ≠ newChecksum then false else true

/-! ## Check definitions and the penalty engine (`Warden::ApplyPenalty`) -/

/-- The struct `WardenCheck`. `Type_` is the member `Type`. -/
structure WardenCheck where
  Type_ : Nat
  Data : List Nat
  Address : Nat
  Length : Nat
  Str : String
  Comment : String
  CheckId : Nat
  Action : Nat
deriving DecidableEq, Repr

/-- A value-initialised `WardenCheck`, as `std::vector::resize` creates. -/
def WardenCheck.empty : WardenCheck :=
  { Type_ := 0, Data := [], Address := 0, Length := 0, Str := "", Comment := "",
    CheckId := 0, Action := 0 }

/-- What `ApplyPenalty` reads from its collaborators: the configuration, the
account name `AccountMgr::GetName` resolves for the session's account, and the
label `EnumUtils::ToTitle` gives an action. -/
structure PenaltyEnv where
  cfg : Config
  accountName : String
  ToTitle : Nat → String

/-- The `banReason` stream built in the `WARDEN_ACTION_BAN` case. -/
def banReason (check : Option WardenCheck) : String :=
  let banReason := "Warden Anticheat Violation"
  -- Check can be NULL, for example if the client sent a wrong signature
  match check with
  | some c => banReason ++ ": " ++ c.Comment ++ " (CheckId: " ++ toString c.CheckId ++ ")"
  | none => banReason

/-- The action `ApplyPenalty` resolves: the check's when one is given, the
server-wide default otherwise. -/
def resolveAction (env : PenaltyEnv) (check : Option WardenCheck) : Nat :=
  match check with
  | some c => c.Action
  | none => env.cfg.ClientCheckFailAction

/-- The method `Warden::ApplyPenalty(check)`: the returned label and the collaborator calls. -/
def ApplyPenalty (env : PenaltyEnv) (check : Option WardenCheck) : String × List Effect :=
  let action := resolveAction env check
  if action = WARDEN_ACTION_KICK then
    (env.ToTitle action, [Effect.KickPlayer "Warden::Penalty"])
  else if action = WARDEN_ACTION_BAN then
    (env.ToTitle action,
      [Effect.BanAccount env.accountName env.cfg.BanDuration (banReason check) "Server"])
  else
    ("None", [])

/-! ## Check repository (`WardenCheckMgr`) -/

/-- The enumerators of `WardenCheckType`, declared outside the given sources;
the repository code only compares a row's type with them. -/
structure CheckTypes where
  MEM_CHECK : Nat
  PAGE_CHECK_A : Nat
  PAGE_CHECK_B : Nat
  MPQ_CHECK : Nat
  LUA_STR_CHECK : Nat
  DRIVER_CHECK : Nat
  PROC_CHECK : Nat
  MODULE_CHECK : Nat
deriving DecidableEq, Repr

/-- One row of `warden_checks` as fetched by the second query of
`LoadWardenChecks`: columns 0-7 read with `GetUInt16`, `GetUInt8`, `GetBinary`,
`GetBinary`, `GetUInt32`, `GetUInt8`, `GetString`, `GetString`. -/
structure CheckRow where
  id : Nat
  type : Nat
  data : List Nat
  result : List Nat
  address : Nat
  length : Nat
  str : String
  comment : String
deriving DecidableEq, Repr

/-- One row of `warden_action`: `wardenId` read with `GetUInt16`, `action` with
`GetUInt8`. -/
structure OverrideRow where
  wardenId : Nat
  action : Nat
deriving DecidableEq, Repr

/-- The members of `WardenCheckMgr`. `wardenCheck` is the object the loop of
`LoadWardenChecks` fills in; it is not declared inside that function and so
keeps its value from one row to the next. -/
structure WardenCheckMgr where
  CheckStore : List WardenCheck
  CheckResultStore : List (Nat × List Nat)
  MemChecksIdPool : List Nat
  OtherChecksIdPool : List Nat
  wardenCheck : WardenCheck
deriving DecidableEq, Repr

/-- The repository of the freshly constructed singleton: empty containers and
a zero-initialised `wardenCheck`. -/
def WardenCheckMgr.new : WardenCheckMgr :=
  { CheckStore := [], CheckResultStore := [], MemChecksIdPool := [],
    OtherChecksIdPool := [], wardenCheck := WardenCheck.empty }

/-- The call `CheckStore.resize(n)` of `std::vector`: truncate, or pad with
value-initialised elements. -/
def resize (store : List WardenCheck) (n : Nat) : List WardenCheck :=
  store.take n ++ List.replicate (n - store.length) WardenCheck.empty

/-- The call `CheckResultStore.emplace(id, result)`: inserts unless the key is
already present. -/
def emplace (m : List (Nat × List Nat)) (id : Nat) (result : List Nat) :
    List (Nat × List Nat) :=
  if m.any (fun kv => kv.1 == id) then m else m ++ [(id, result)]

/-- The result of `SELECT MAX(id) FROM warden_checks`. -/
def maxCheckId (rows : List CheckRow) : Nat :=
  rows.foldl (fun acc r => max acc r.id) 0

/-- One iteration of the `do ... while (result->NextRow())` loop of
`LoadWardenChecks`; the second component is `count`. -/
def loadRow (K : CheckTypes) (cfg : Config) (s : WardenCheckMgr × Nat) (row : CheckRow) :
    WardenCheckMgr × Nat :=
  let mgr := s.1
  let id := row.id
  let type := row.type
  let wc : WardenCheck := { mgr.wardenCheck with CheckId := id, Type_ := type }
  -- Initialize action with default action from config
  let wc : WardenCheck := { wc with Action := cfg.ClientCheckFailAction }
  let wc : WardenCheck :=
    if type = K.PAGE_CHECK_A ∨ type = K.PAGE_CHECK_B ∨ type = K.DRIVER_CHECK then
      { wc with Data := row.data } else wc
  let results :=
    if type = K.MPQ_CHECK ∨ type = K.MEM_CHECK then
      emplace mgr.CheckResultStore id row.result else mgr.CheckResultStore
  let wc : WardenCheck :=
    if type = K.MEM_CHECK ∨ type = K.PAGE_CHECK_A ∨ type = K.PAGE_CHECK_B ∨ type = K.PROC_CHECK then
      { wc with Address := row.address, Length := row.length } else wc
  -- PROC_CHECK support missing
  let wc : WardenCheck :=
    if type = K.MEM_CHECK ∨ type = K.MPQ_CHECK ∨ type = K.LUA_STR_CHECK ∨ type = K.DRIVER_CHECK
        ∨ type = K.MODULE_CHECK then
      { wc with Str := row.str } else wc
  let store := mgr.CheckStore.set id wc
  let wc : WardenCheck := { wc with Comment := row.comment }
  let wc : WardenCheck :=
    if wc.Comment.isEmpty then { wc with Comment := "Undocumented Check" } else wc
  let mem := if type = K.MEM_CHECK ∨ type = K.MODULE_CHECK then
    mgr.MemChecksIdPool ++ [id] else mgr.MemChecksIdPool
  let other := if type = K.MEM_CHECK ∨ type = K.MODULE_CHECK then
    mgr.OtherChecksIdPool else mgr.OtherChecksIdPool ++ [id]
  ({ CheckStore := store, CheckResultStore := results, MemChecksIdPool := mem,
     OtherChecksIdPool := other, wardenCheck := wc }, s.2 + 1)

/-- The method `WardenCheckMgr::LoadWardenChecks`; `rows` is the content of
`warden_checks` in the order the query returns it. The result is the repository
and the number of rows counted. -/
def LoadWardenChecks (K : CheckTypes) (cfg : Config) (mgr : WardenCheckMgr)
    (rows : List CheckRow) : WardenCheckMgr × Nat :=
  -- Check if Warden is enabled by config before loading anything
  if !cfg.WardenEnabled then (mgr, 0)
  else if rows.isEmpty then (mgr, 0)
  else
    let mgr1 := { mgr with CheckStore := resize mgr.CheckStore (maxCheckId rows + 1) }
    rows.foldl (loadRow K cfg) (mgr1, 0)

/-- The state of the loop of `LoadWardenOverrides`: the repository, `count`,
the rows reported with `LOG_ERROR`, and the rows whose write
`CheckStore[checkId].Action = ...` went to an index that is not below
`CheckStore.size()`, that is outside the elements of the vector. -/
structure OverrideRun where
  mgr : WardenCheckMgr
  count : Nat
  errors : List OverrideRow
  outside : List OverrideRow
deriving DecidableEq, Repr

/-- One iteration of the `do ... while (result->NextRow())` loop of
`LoadWardenOverrides`. -/
def overrideRow (s : OverrideRun) (row : OverrideRow) : OverrideRun :=
  let checkId := row.wardenId
  let action := row.action
  -- Check if action value is in range (0-2, see WardenActions enum)
  if action > WARDEN_ACTION_BAN then
    { s with errors := s.errors ++ [row] }
  -- Check if check actually exists before accessing the CheckStore vector
  else if checkId > s.mgr.CheckStore.length then
    { s with errors := s.errors ++ [row] }
  else
    match s.mgr.CheckStore.get? checkId with
    | some c =>
      { s with
        mgr := { s.mgr with CheckStore := s.mgr.CheckStore.set checkId { c with Action := action } }
        count := s.count + 1 }
    | none =>
      { s with outside := s.outside ++ [row], count := s.count + 1 }

/-- The method `WardenCheckMgr::LoadWardenOverrides`; `rows` is the content of
`warden_action`. -/
def LoadWardenOverrides (cfg : Config) (mgr : WardenCheckMgr) (rows : List OverrideRow) :
    OverrideRun :=
  let s0 : OverrideRun := { mgr := mgr, count := 0, errors := [], outside := [] }
  -- Check if Warden is enabled by config before loading anything
  if !cfg.WardenEnabled then s0
  else if rows.isEmpty then s0
  else rows.foldl overrideRow s0

/-- The method `WardenCheckMgr::GetCheckDataById`: `none` is the failed
`ASSERT(Id < CheckStore.size())`. -/
def GetCheckDataById (mgr : WardenCheckMgr) (Id : Nat) : Option WardenCheck :=
  if Id < mgr.CheckStore.length then mgr.CheckStore.get? Id else none

/-- The method `WardenCheckMgr::GetCheckResultById`: `none` is the failed
`ASSERT(it != CheckResultStore.end())`. -/
def GetCheckResultById (mgr : WardenCheckMgr) (Id : Nat) : Option (List Nat) :=
  (mgr.CheckResultStore.find? (fun kv => kv.1 == Id)).map (fun kv => kv.2)

/-! ## The wire side of module transfer and inbound dispatch (`Warden::HandleData`) -/

/-- The packet struct read back from its bytes in memory order: the inverse
view of `WardenModuleTransfer.bytes`. -/
def WardenModuleTransfer.ofBytes (b : List Nat) : WardenModuleTransfer :=
  { Command := b.getD 0 0, DataSize := b.getD 1 0 + 256 * b.getD 2 0, Data := b.drop 3 }

/-- What `SendModuleToClient` does on the wire: the outbound cipher after the
loop, the buffers handed to `EncryptData` in call order, and the `SendPacket`
calls in order. -/
structure SendTrace (σ : Type) where
  crypto : σ
  encrypted : List (List Nat)
  sent : List Effect

/-- The `while (sizeLeft > 0)` loop of `SendModuleToClient` with its cipher and
send calls. `UpdateData` is `ARC4::UpdateData` of `_outputCrypto`, a parameter:
it returns the advanced cipher and the transformed bytes. `EncryptData` works
in place on the first `burstSize + 3` bytes of `packet`, which are then
appended to `pkt1` and sent. -/
def sendLoopWire {σ : Type} (UpdateData : σ → List Nat → σ × List Nat) (op : Opcodes)
    (data : List Nat) (packet : WardenModuleTransfer) (crypto : σ)
    (sizeLeft pos : Nat) : SendTrace σ :=
  if _h : sizeLeft > 0 then
    let burstSize := (if sizeLeft < 500 then sizeLeft else 500) % UINT16
    let packet1 : WardenModuleTransfer :=
      { Command := op.WARDEN_SMSG_MODULE_CACHE
        DataSize := burstSize
        Data := memcpy packet.Data (data.drop pos) burstSize }
    let buffer := packet1.bytes.take (burstSize + 3)
    let r := UpdateData crypto buffer
    let memory := r.2 ++ packet1.bytes.drop (burstSize + 3)
    let pkt1 := memory.take (burstSize + 3)
    let t := sendLoopWire UpdateData op data (WardenModuleTransfer.ofBytes memory) r.1
      ((sizeLeft + (UINT32 - burstSize)) % UINT32) ((pos + burstSize) % UINT32)
    { crypto := t.crypto, encrypted := buffer :: t.encrypted,
      sent := Effect.SendPacket pkt1 :: t.sent }
  else { crypto := crypto, encrypted := [], sent := [] }
termination_by sizeLeft
decreasing_by
  simp only [UINT16, UINT32]
  split <;> omega

/-- The method `Warden::SendModuleToClient` with its cipher and send calls. -/
def SendModuleToClientWire {σ : Type} (UpdateData : σ → List Nat → σ × List Nat)
    (op : Opcodes) (m : ClientWardenModule) (packet0 : WardenModuleTransfer) (crypto : σ) :
    SendTrace σ :=
  sendLoopWire UpdateData op m.CompressedData packet0 crypto (m.CompressedSize % UINT32) 0

/-- Reference description of encrypting a sequence of buffers one call per
buffer, in order, each call continuing from the cipher state the previous one
left: the final cipher and the outputs. -/
def encryptInOrder {σ : Type} (UpdateData : σ → List Nat → σ × List Nat) (c : σ) :
    List (List Nat) → σ × List (List Nat)
  | [] => (c, [])
  | b :: bs =>
    let r := UpdateData c b
    let r2 := encryptInOrder UpdateData r.1 bs
    (r2.1, r.2 :: r2.2)

/-- The opcodes a client sends, enumerators declared outside the given sources. -/
structure ClientOpcodes where
  WARDEN_CMSG_MODULE_MISSING : Nat
  WARDEN_CMSG_MODULE_OK : Nat
  WARDEN_CMSG_CHEAT_CHECKS_RESULT : Nat
  WARDEN_CMSG_MEM_CHECKS_RESULT : Nat
  WARDEN_CMSG_HASH_RESULT : Nat
  WARDEN_CMSG_MODULE_FAILED : Nat
deriving DecidableEq, Repr

/-- The case labels of the `switch` in `HandleData`, in source order. -/
def ClientOpcodes.labels (ops : ClientOpcodes) : List Nat :=
  [ops.WARDEN_CMSG_MODULE_MISSING, ops.WARDEN_CMSG_MODULE_OK,
   ops.WARDEN_CMSG_CHEAT_CHECKS_RESULT, ops.WARDEN_CMSG_MEM_CHECKS_RESULT,
   ops.WARDEN_CMSG_HASH_RESULT, ops.WARDEN_CMSG_MODULE_FAILED]

/-- The engine as `HandleData` sees it: the timers and flags, the two ciphers
and the module (`none` while `_module` holds no value). -/
structure Engine (σ : Type) where
  warden : WardenState
  _inputCrypto : σ
  _outputCrypto : σ
  _module : Option ClientWardenModule

/-- The virtual members `HandleData` dispatches to, implemented by the platform
subclasses; the buffer argument is what follows the opcode. -/
structure Handlers (σ : Type) where
  RequestHash : Engine σ → Engine σ × List Effect
  HandleCheckResult : Engine σ → List Nat → Engine σ × List Effect
  HandleHashResult : Engine σ → List Nat → Engine σ × List Effect
  InitializeModule : Engine σ → Engine σ × List Effect

/-- The method `Warden::HandleData(buff)`. `UpdateData` is `ARC4::UpdateData`,
used by both ciphers. The result is `none` when `buff >> opcode` throws on an
empty buffer or `SendModuleToClient` dereferences a `_module` without value.
The `switch` is an if-chain in the order of its case labels. -/
def HandleData {σ : Type} (UpdateData : σ → List Nat → σ × List Nat) (ops : ClientOpcodes)
    (op : Opcodes) (H : Handlers σ) (packet0 : WardenModuleTransfer) (e : Engine σ)
    (buff : List Nat) : Option (Engine σ × List Effect) :=
  let d := UpdateData e._inputCrypto buff
  let e1 : Engine σ := { e with _inputCrypto := d.1 }
  match d.2 with
  | [] => none
  | opcode :: rest =>
    if opcode = ops.WARDEN_CMSG_MODULE_MISSING then
      match e1._module with
      | none => none
      | some m =>
        let t := SendModuleToClientWire UpdateData op m packet0 e1._outputCrypto
        some ({ e1 with _outputCrypto := t.crypto }, t.sent)
    else if opcode = ops.WARDEN_CMSG_MODULE_OK then
      some (H.RequestHash e1)
    else if opcode = ops.WARDEN_CMSG_CHEAT_CHECKS_RESULT then
      some (H.HandleCheckResult e1 rest)
    else if opcode = ops.WARDEN_CMSG_MEM_CHECKS_RESULT then
      some (e1, [])
    else if opcode = ops.WARDEN_CMSG_HASH_RESULT then
      let r := H.HandleHashResult e1 rest
      let r2 := H.InitializeModule r.1
      some (r2.1, r.2 ++ r2.2)
    else if opcode = ops.WARDEN_CMSG_MODULE_FAILED then
      some (e1, [])
    else
      some (e1, [])

/-- Whether a row type is one of the kinds whose identifier goes to
`MemChecksIdPool`. -/
def isMemPoolKind (K : CheckTypes) (type : Nat) : Bool :=
  decide (type = K.MEM_CHECK ∨ type = K.MODULE_CHECK)

/-- Whether a row type is one of the kinds whose result column is stored in
`CheckResultStore`. -/
def isResultKind (K : CheckTypes) (type : Nat) : Bool :=
  decide (type = K.MPQ_CHECK ∨ type = K.MEM_CHECK)

/-! ## Sample data used by the worked examples -/

/-- Values of the `WardenCheckType` enumerators used in the worked examples. -/
def sampleTypes : CheckTypes :=
  { MEM_CHECK := 243, PAGE_CHECK_A := 178, PAGE_CHECK_B := 191, MPQ_CHECK := 152,
    LUA_STR_CHECK := 139, DRIVER_CHECK := 113, PROC_CHECK := 126, MODULE_CHECK := 217 }

/-- A configuration with Warden enabled, a response delay of one second, the
default action `Log` and a ban of one day. -/
def sampleConfig : Config :=
  { WardenEnabled := true, ClientResponseDelay := 1, ClientCheckFailAction := 0,
    BanDuration := 86400 }

/-- The configuration `sampleConfig` with the default action `Ban`. -/
def sampleBanConfig : Config :=
  { WardenEnabled := true, ClientResponseDelay := 1, ClientCheckFailAction := 2,
    BanDuration := 86400 }

/-- A memory check with identifier 0 and a comment. -/
def sampleRow : CheckRow :=
  { id := 0, type := 243, data := [], result := [222, 173], address := 4096, length := 2,
    str := "", comment := "Speed hack" }

/-- A driver check with identifier 2 and no comment. -/
def sampleRow2 : CheckRow :=
  { id := 2, type := 113, data := [1, 2, 3], result := [], address := 0, length := 0,
    str := "driver", comment := "" }

/-- A `RequestChecks` that marks the challenge as sent and sends nothing. -/
def sampleRequestChecks (w : WardenState) : WardenState × List Effect :=
  ({ w with _dataSent := true }, [])

/-- An initialised engine with a challenge outstanding and the response timer
at its initial value 0. -/
def challengeSent : WardenState :=
  { _checkTimer := 10000, _clientResponseTimer := 0, _dataSent := true, _initialized := true }

/-- An initialised engine with a challenge outstanding whose response timer,
1001 ms, is above the one-second delay of `sampleConfig`. -/
def timedOut : WardenState :=
  { _checkTimer := 10000, _clientResponseTimer := 1001, _dataSent := true,
    _initialized := true }

/-- A check with identifier 1 whose configured action is `Ban`. -/
def sampleBanCheck : WardenCheck :=
  { WardenCheck.empty with Comment := "Speed hack", CheckId := 1, Action := 2 }

/-- The collaborators of `ApplyPenalty` for an account named `player`. -/
def samplePenaltyEnv : PenaltyEnv :=
  { cfg := sampleConfig, accountName := "player",
    ToTitle := fun a => if a = 1 then "Kick" else if a = 2 then "Ban" else "Log" }

/-- The collaborators of `ApplyPenalty` under the default action `Ban`. -/
def sampleBanEnv : PenaltyEnv :=
  { cfg := sampleBanConfig, accountName := "player",
    ToTitle := fun a => if a = 1 then "Kick" else if a = 2 then "Ban" else "Log" }

/-- A stand-in for the digest parameter in the worked examples: twenty bytes
derived from the input. -/
def sampleDigest (bytes : List Nat) : List Nat :=
  (List.range 20).map (fun i => (bytes.sum + i * bytes.length) % 256)

/-- A page check with identifier 0 that carries data, an address and a length. -/
def samplePageRow : CheckRow :=
  { id := 0, type := 178, data := [1, 2, 3], result := [], address := 4096, length := 6,
    str := "", comment := "Page scan" }

/-- A Lua string check with identifier 1: its kind carries only a string. -/
def sampleLuaRow : CheckRow :=
  { id := 1, type := 139, data := [], result := [], address := 0, length := 0,
    str := "SomeAddon", comment := "Addon" }

/-- The opcodes of the client in the worked examples. -/
def sampleClientOpcodes : ClientOpcodes :=
  { WARDEN_CMSG_MODULE_MISSING := 0, WARDEN_CMSG_MODULE_OK := 1,
    WARDEN_CMSG_CHEAT_CHECKS_RESULT := 2, WARDEN_CMSG_MEM_CHECKS_RESULT := 3,
    WARDEN_CMSG_HASH_RESULT := 4, WARDEN_CMSG_MODULE_FAILED := 5 }

/-- A stand-in stream cipher for the worked examples: the state is the number
of bytes processed so far, byte `i` of the stream is XORed with `i % 256`. -/
def sampleCipher (c : Nat) (bytes : List Nat) : Nat × List Nat :=
  (c + bytes.length, (List.range bytes.length).zipWith (fun i b => b ^^^ ((c + i) % 256)) bytes)

/-- Handlers that mark the challenge as answered and send nothing. -/
def sampleHandlers : Handlers Nat :=
  { RequestHash := fun e => (e, [])
    HandleCheckResult := fun e _ => ({ e with warden := { e.warden with _dataSent := false } }, [])
    HandleHashResult := fun e _ => (e, [])
    InitializeModule := fun e => ({ e with warden := { e.warden with _initialized := true } }, []) }

/-- An engine with a challenge outstanding and a three-byte module. -/
def sampleEngine : Engine Nat :=
  { warden := challengeSent, _inputCrypto := 0, _outputCrypto := 0,
    _module := some { CompressedData := [9, 8, 7], CompressedSize := 3 } }

/-- An initialised engine with no challenge outstanding and 5000 ms left on the
check timer. -/
def idleEngine : WardenState :=
  { _checkTimer := 5000, _clientResponseTimer := 0, _dataSent := false, _initialized := true }

/-- The table of the worked examples: the memory check 0 and the driver check
2, in the order of the query. -/
def sampleTable : List CheckRow := [sampleRow, sampleRow2]

/-- The repository after loading `sampleTable` into a fresh one; its store has
three entries, entry 1 being a gap. -/
def sampleLoaded : WardenCheckMgr :=
  (LoadWardenChecks sampleTypes sampleConfig WardenCheckMgr.new sampleTable).1

/-- The collaborators of `ApplyPenalty` when the default action is configured
as 5, a value outside the enum. -/
def sampleOddEnv : PenaltyEnv :=
  { cfg := { WardenEnabled := true, ClientResponseDelay := 1, ClientCheckFailAction := 5,
             BanDuration := 86400 },
    accountName := "player",
    ToTitle := fun a => if a = 1 then "Kick" else if a = 2 then "Ban" else "Log" }

end Warden

/-! # Theorems -/

namespace Warden

/-! ## Module transfer -/

/-- The payload of the fragment built in one iteration is the next `burst`
bytes of the module. -/
theorem payload_of_burst (cmd : Nat) (old src : List Nat) (burst : Nat)
    (h : burst ≤ src.length) :
    Fragment.payload
      { burstSize := burst,
        plain := (WardenModuleTransfer.bytes
          { Command := cmd, DataSize := burst, Data := memcpy old src burst }).take (burst + 3) }
      = src.take burst := by
  simp only [Fragment.payload, WardenModuleTransfer.bytes, memcpy]
  have h3 : burst + 3 = (burst + 1 + 1) + 1 := by omega
  rw [h3, List.take_succ_cons, List.take_succ_cons, List.take_succ_cons]
  simp only [List.drop_succ_cons, List.drop_zero]
  rw [List.take_append_of_le_length (by simp [List.length_take]; omega)]
  simp

/-- The loop invariant of `sendLoop`: with `sizeLeft` bytes left from `pos`,
the payloads still to be sent are the rest of the module, in bursts of 1 to 500
bytes. -/
theorem sendLoop_spec (op : Opcodes) (data : List Nat) (hlen : data.length < UINT32) :
    ∀ (sizeLeft : Nat) (packet : WardenModuleTransfer) (pos : Nat),
      pos + sizeLeft = data.length →
      ((sendLoop op data packet sizeLeft pos).map Fragment.payload).flatten = data.drop pos
      ∧ ∀ f ∈ sendLoop op data packet sizeLeft pos,
          f.payload.length ≤ 500 ∧ f.payload.length = f.burstSize ∧ 0 < f.burstSize := by
  intro sizeLeft
  induction sizeLeft using Nat.strong_induction_on with
  | _ n ih =>
    intro packet pos hpos
    rw [sendLoop]
    by_cases hn : n > 0
    · simp only [hn, dite_true]
      have hb : (if n < 500 then n else 500) % UINT16 = min n 500 := by
        simp only [UINT16]; split <;> omega
      have hs : (n + (UINT32 - min n 500)) % UINT32 = n - min n 500 := by
        simp only [UINT32] at hlen ⊢; omega
      have hp : (pos + min n 500) % UINT32 = pos + min n 500 := by
        simp only [UINT32] at hlen ⊢; omega
      rw [hb, hs, hp]
      have hsrc : min n 500 ≤ (data.drop pos).length := by
        rw [List.length_drop]; omega
      have hpay := payload_of_burst op.WARDEN_SMSG_MODULE_CACHE packet.Data (data.drop pos)
        (min n 500) hsrc
      obtain ⟨ih1, ih2⟩ := ih (n - min n 500) (by omega)
        { Command := op.WARDEN_SMSG_MODULE_CACHE, DataSize := min n 500,
          Data := memcpy packet.Data (data.drop pos) (min n 500) }
        (pos + min n 500) (by omega)
      constructor
      · rw [List.map_cons, List.flatten_cons, hpay, ih1]
        rw [← List.drop_drop]
        exact List.take_append_drop _ _
      · intro f hf
        rcases List.mem_cons.1 hf with rfl | hf
        · have hl : ((data.drop pos).take (min n 500)).length = min n 500 := by
            rw [List.length_take]; exact Nat.min_eq_left hsrc
          rw [hpay, hl]
          have h1 : min n 500 ≤ 500 := Nat.min_le_right _ _
          have h2 : 0 < min n 500 := by omega
          exact ⟨h1, rfl, h2⟩
        · exact ih2 f hf
    · have h0 : n = 0 := by omega
      subst h0
      simp only [gt_iff_lt, Nat.lt_irrefl, dite_false, List.map_nil, List.flatten_nil,
        List.not_mem_nil, false_implies, implies_true, and_true]
      rw [List.drop_of_length_le (by omega)]

/-- Claim C1. For every module, a compressed byte sequence `data` of any length
a `uint32` size can hold (zero included), the payloads of the fragments
`SendModuleToClient` emits, in sending order and before encryption, concatenate
to exactly `data`, and every fragment carries at most 500 payload bytes. -/
theorem SendModuleToClient_roundtrip (op : Opcodes) (data : List Nat)
    (packet0 : WardenModuleTransfer) (h32 : data.length < UINT32) :
    ((SendModuleToClient op { CompressedData := data, CompressedSize := data.length }
        packet0).map Fragment.payload).flatten = data
    ∧ ∀ f ∈ SendModuleToClient op { CompressedData := data, CompressedSize := data.length }
        packet0, f.payload.length ≤ 500 := by
  obtain ⟨h1, h2⟩ := sendLoop_spec op data h32 data.length packet0 0 (by omega)
  unfold SendModuleToClient
  simp only [Nat.mod_eq_of_lt h32]
  exact ⟨by simpa using h1, fun f hf => (h2 f hf).1⟩

/-- Claim C1 at a module of 1203 bytes, sent as three fragments. -/
theorem SendModuleToClient_roundtrip_witness :
    (List.replicate 1203 7).length < UINT32
    ∧ (((SendModuleToClient ⟨2⟩
          { CompressedData := List.replicate 1203 7,
            CompressedSize := (List.replicate 1203 7).length }
          ⟨0, 0, []⟩).map Fragment.payload).flatten = List.replicate 1203 7
       ∧ ∀ f ∈ SendModuleToClient ⟨2⟩
          { CompressedData := List.replicate 1203 7,
            CompressedSize := (List.replicate 1203 7).length }
          ⟨0, 0, []⟩, f.payload.length ≤ 500) :=
  have h : (List.replicate 1203 7).length < UINT32 := by
    rw [List.length_replicate]; decide
  ⟨h, SendModuleToClient_roundtrip ⟨2⟩ (List.replicate 1203 7) ⟨0, 0, []⟩ h⟩

/-! ## Action overrides -/

/-- An override whose action is above `WARDEN_ACTION_BAN` is only logged. -/
theorem overrideRow_action_out_of_range (s : OverrideRun) (row : OverrideRow)
    (h : row.action > WARDEN_ACTION_BAN) :
    overrideRow s row = { s with errors := s.errors ++ [row] } := by
  simp [overrideRow, h]

/-- An override whose identifier is above the size of the store is only logged. -/
theorem overrideRow_id_above_size (s : OverrideRun) (row : OverrideRow)
    (h : row.wardenId > s.mgr.CheckStore.length) :
    overrideRow s row = { s with errors := s.errors ++ [row] } := by
  unfold overrideRow
  simp only [h, if_true]
  split <;> rfl

/-- An override with an allowed action whose identifier equals the size of the
store passes the guard `checkId > CheckStore.size()`: it is counted as applied
and writes past the last element. -/
theorem overrideRow_id_eq_size (s : OverrideRun) (row : OverrideRow)
    (ha : row.action ≤ WARDEN_ACTION_BAN) (hid : row.wardenId = s.mgr.CheckStore.length) :
    overrideRow s row = { s with outside := s.outside ++ [row], count := s.count + 1 } := by
  unfold overrideRow
  have h1 : ¬ row.action > WARDEN_ACTION_BAN := by omega
  have h2 : ¬ row.wardenId > s.mgr.CheckStore.length := by omega
  have h3 : s.mgr.CheckStore.get? row.wardenId = none := by
    rw [List.get?_eq_getElem?, List.getElem?_eq_none_iff]; omega
  simp only [h1, h2, if_false, h3]

/-- Claim C2, the code at the failing input. In a repository holding the single
check 0 (store size 1) the override row with identifier 1, equal to the size,
and action `Kick` is not rejected: nothing is logged, the applied count becomes
1 and the write goes to the position after the last element of the store. -/
theorem LoadWardenOverrides_accepts_id_eq_size :
    (LoadWardenChecks sampleTypes sampleConfig WardenCheckMgr.new [sampleRow]).1.CheckStore.length
      = 1
    ∧ (LoadWardenOverrides sampleConfig
        (LoadWardenChecks sampleTypes sampleConfig WardenCheckMgr.new [sampleRow]).1
        [{ wardenId := 1, action := 1 }]).count = 1
    ∧ (LoadWardenOverrides sampleConfig
        (LoadWardenChecks sampleTypes sampleConfig WardenCheckMgr.new [sampleRow]).1
        [{ wardenId := 1, action := 1 }]).errors = []
    ∧ (LoadWardenOverrides sampleConfig
        (LoadWardenChecks sampleTypes sampleConfig WardenCheckMgr.new [sampleRow]).1
        [{ wardenId := 1, action := 1 }]).outside = [{ wardenId := 1, action := 1 }] := by
  decide

/-! ## Loading the checks -/

/-- The length of `resize store n` is `n`. -/
theorem length_resize (store : List WardenCheck) (n : Nat) : (resize store n).length = n := by
  simp only [resize, List.length_append, List.length_take, List.length_replicate]
  omega

/-- The fold computing `maxCheckId` returns its start value or an identifier of
the table, and is an upper bound of both. -/
theorem foldl_max_id (l : List CheckRow) :
    ∀ a : Nat,
      a ≤ l.foldl (fun acc r => max acc r.id) a
      ∧ (∀ q ∈ l, q.id ≤ l.foldl (fun acc r => max acc r.id) a)
      ∧ (l.foldl (fun acc r => max acc r.id) a = a
          ∨ ∃ q ∈ l, q.id = l.foldl (fun acc r => max acc r.id) a) := by
  induction l with
  | nil => intro a; simp
  | cons x xs ih =>
    intro a
    obtain ⟨h1, h2, h3⟩ := ih (max a x.id)
    simp only [List.foldl_cons, List.mem_cons, forall_eq_or_imp, exists_eq_or_imp]
    refine ⟨le_trans (le_max_left _ _) h1, ⟨le_trans (le_max_right _ _) h1, h2⟩, ?_⟩
    rcases h3 with h3 | ⟨q, hq, hqe⟩
    · rcases Nat.le_total a x.id with hax | hax
      · right; left; rw [h3]; exact (Nat.max_eq_right hax).symm
      · left; rw [h3]; exact Nat.max_eq_left hax
    · right; right; exact ⟨q, hq, hqe⟩

/-- Every identifier of the table is at most `maxCheckId`. -/
theorem le_maxCheckId (rows : List CheckRow) : ∀ q ∈ rows, q.id ≤ maxCheckId rows :=
  (foldl_max_id rows 0).2.1

/-- In a table with at least one row `maxCheckId` is the identifier of a row. -/
theorem maxCheckId_mem (rows : List CheckRow) (r : CheckRow) (hr : r ∈ rows) :
    ∃ q ∈ rows, q.id = maxCheckId rows := by
  rcases (foldl_max_id rows 0).2.2 with h | h
  · refine ⟨r, hr, ?_⟩
    have hle := le_maxCheckId rows r hr
    unfold maxCheckId at hle ⊢
    omega
  · exact h

/-- The store written by one iteration: the entry `row.id` is replaced by an
object whose `CheckId` and `Type` are the row's and whose `Comment` is the one
`wardenCheck` held before the row. -/
theorem loadRow_store (K : CheckTypes) (cfg : Config) (s : WardenCheckMgr × Nat)
    (row : CheckRow) :
    ∃ wc : WardenCheck, (loadRow K cfg s row).1.CheckStore = s.1.CheckStore.set row.id wc
      ∧ wc.CheckId = row.id ∧ wc.Type_ = row.type
      ∧ wc.Comment = s.1.wardenCheck.Comment := by
  unfold loadRow
  simp only
  refine ⟨_, rfl, ?_, ?_, ?_⟩ <;> split_ifs <;> rfl

/-- One iteration keeps the size of the store. -/
theorem loadRow_length (K : CheckTypes) (cfg : Config) (s : WardenCheckMgr × Nat)
    (row : CheckRow) :
    (loadRow K cfg s row).1.CheckStore.length = s.1.CheckStore.length := by
  obtain ⟨wc, h, -⟩ := loadRow_store K cfg s row
  rw [h, List.length_set]

/-- The loop keeps the size of the store. -/
theorem foldl_loadRow_length (K : CheckTypes) (cfg : Config) (rows : List CheckRow) :
    ∀ s : WardenCheckMgr × Nat,
      (rows.foldl (loadRow K cfg) s).1.CheckStore.length = s.1.CheckStore.length := by
  induction rows with
  | nil => intro s; rfl
  | cons r rest ih =>
    intro s
    rw [List.foldl_cons, ih, loadRow_length]

/-- Rows with other identifiers leave entry `i` of the store alone. -/
theorem foldl_loadRow_get_other (K : CheckTypes) (cfg : Config) (i : Nat)
    (rows : List CheckRow) :
    ∀ s : WardenCheckMgr × Nat, (∀ q ∈ rows, q.id ≠ i) →
      (rows.foldl (loadRow K cfg) s).1.CheckStore.get? i = s.1.CheckStore.get? i := by
  induction rows with
  | nil => intro s _; rfl
  | cons r rest ih =>
    intro s h
    rw [List.foldl_cons, ih _ (fun q hq => h q (List.mem_cons_of_mem _ hq))]
    obtain ⟨wc, hset, -⟩ := loadRow_store K cfg s r
    rw [hset]
    simp only [List.get?_eq_getElem?]
    exact List.getElem?_set_ne (h r (List.mem_cons_self _ _))

/-- The entry of a row in a table of unique identifiers, after the loop. -/
theorem foldl_loadRow_get (K : CheckTypes) (cfg : Config) (r : CheckRow)
    (rows : List CheckRow) :
    ∀ s : WardenCheckMgr × Nat, r ∈ rows → (rows.map CheckRow.id).Nodup →
      r.id < s.1.CheckStore.length →
      ∃ e, (rows.foldl (loadRow K cfg) s).1.CheckStore.get? r.id = some e
        ∧ e.CheckId = r.id ∧ e.Type_ = r.type := by
  induction rows with
  | nil => intro s h; simp at h
  | cons q rest ih =>
    intro s hmem hnd hlt
    rw [List.map_cons, List.nodup_cons] at hnd
    rw [List.foldl_cons]
    rcases List.mem_cons.1 hmem with rfl | hin
    · have hother : ∀ x ∈ rest, x.id ≠ r.id := by
        intro x hx hxe
        exact hnd.1 (hxe ▸ List.mem_map_of_mem CheckRow.id hx)
      rw [foldl_loadRow_get_other K cfg r.id rest _ hother]
      obtain ⟨wc, hset, hid, hty, -⟩ := loadRow_store K cfg s r
      refine ⟨wc, ?_, hid, hty⟩
      rw [hset]
      simp only [List.get?_eq_getElem?]
      rw [List.getElem?_set_self hlt]
    · exact ih _ hin hnd.2 (by rw [loadRow_length]; exact hlt)

/-- Claim C3, the code at the failing input. After loading the one-row table
holding check 0 with comment `Speed hack` into a fresh repository,
`GetCheckDataById 0` has an empty `Comment`: the row is copied into the store
before its comment is read. With a second row, check 2 with an empty comment,
`GetCheckDataById 2` carries the first row's comment instead of the placeholder
`Undocumented Check`. -/
theorem LoadWardenChecks_comment_not_stored :
    (GetCheckDataById
      (LoadWardenChecks sampleTypes sampleConfig WardenCheckMgr.new [sampleRow]).1 0).map
        WardenCheck.Comment = some ""
    ∧ (GetCheckDataById
      (LoadWardenChecks sampleTypes sampleConfig WardenCheckMgr.new [sampleRow, sampleRow2]).1
        2).map WardenCheck.Comment = some "Speed hack" := by
  decide

end Warden

namespace Warden

/-! ## The response watchdog of `Update` -/

/-- While a challenge is outstanding and the response timer is not above the
configured delay, a tick subtracts `diff` from the `uint32` timer and calls no
collaborator. -/
theorem Update_waiting (cfg : Config) (rc : WardenState → WardenState × List Effect)
    (w : WardenState) (diff : Nat)
    (hi : w._initialized = true) (hd : w._dataSent = true)
    (hD : 0 < cfg.ClientResponseDelay)
    (ht : ¬ w._clientResponseTimer > (cfg.ClientResponseDelay * IN_MILLISECONDS) % UINT32) :
    Update cfg rc w diff
      = ({ w with _clientResponseTimer := subU32 w._clientResponseTimer diff }, []) := by
  simp [Update, hi, hd, hD, ht]

/-- Once the response timer is above the configured delay, a tick kicks the
session and changes nothing in the engine. -/
theorem Update_timed_out (cfg : Config) (rc : WardenState → WardenState × List Effect)
    (w : WardenState) (diff : Nat)
    (hi : w._initialized = true) (hd : w._dataSent = true)
    (hD : 0 < cfg.ClientResponseDelay)
    (ht : w._clientResponseTimer > (cfg.ClientResponseDelay * IN_MILLISECONDS) % UINT32) :
    Update cfg rc w diff = (w, [Effect.KickPlayer updateKickReason]) := by
  simp [Update, hi, hd, hD, ht]

/-- Claim C4, the code at the failing input. With a response delay of one
second and the response timer at its initial value 0, two ticks of 1 ms (2 ms
in total, far below 1000 ms) end in a kick: the first tick subtracts 1 from the
unsigned timer, which wraps to 4294967295, and the second tick finds it above
the delay. -/
theorem Update_kicks_within_delay :
    0 < sampleConfig.ClientResponseDelay
    ∧ challengeSent._clientResponseTimer = 0
    ∧ [1, 1].sum ≤ sampleConfig.ClientResponseDelay * IN_MILLISECONDS
    ∧ (runUpdates sampleConfig sampleRequestChecks challengeSent [1]).1._clientResponseTimer
        = 4294967295
    ∧ (runUpdates sampleConfig sampleRequestChecks challengeSent [1, 1]).2
        = [Effect.KickPlayer updateKickReason] := by
  decide

/-- While a challenge is outstanding a tick either kicks and leaves the engine
as it is, or calls no collaborator and keeps the challenge outstanding. -/
theorem Update_outstanding (cfg : Config) (rc : WardenState → WardenState × List Effect)
    (w : WardenState) (diff : Nat)
    (hi : w._initialized = true) (hd : w._dataSent = true) :
    Update cfg rc w diff = (w, [Effect.KickPlayer updateKickReason])
    ∨ ((Update cfg rc w diff).2 = []
        ∧ (Update cfg rc w diff).1._initialized = true
        ∧ (Update cfg rc w diff).1._dataSent = true) := by
  by_cases hD : 0 < cfg.ClientResponseDelay
  · by_cases ht : w._clientResponseTimer
        > (cfg.ClientResponseDelay * IN_MILLISECONDS) % UINT32
    · left
      exact Update_timed_out cfg rc w diff hi hd hD ht
    · right
      rw [Update_waiting cfg rc w diff hi hd hD ht]
      exact ⟨rfl, hi, hd⟩
  · right
    have h0 : ¬ cfg.ClientResponseDelay > 0 := hD
    simp [Update, hi, hd, h0]

/-- Ticks delivered while a challenge is outstanding make no collaborator call
other than one kick, which ends the delivery. -/
theorem deliverTicks_outstanding (cfg : Config)
    (rc : WardenState → WardenState × List Effect) (diffs : List Nat) :
    ∀ w : WardenState, w._initialized = true → w._dataSent = true →
      ((deliverTicks cfg rc w diffs).2 = []
        ∧ (deliverTicks cfg rc w diffs).1._initialized = true
        ∧ (deliverTicks cfg rc w diffs).1._dataSent = true)
      ∨ (deliverTicks cfg rc w diffs).2 = [Effect.KickPlayer updateKickReason] := by
  induction diffs with
  | nil => intro w hi hd; left; exact ⟨rfl, hi, hd⟩
  | cons d rest ih =>
    intro w hi hd
    rcases Update_outstanding cfg rc w d hi hd with hk | ⟨he, hi2, hd2⟩
    · right
      simp [deliverTicks, hk, Effect.isKick]
    · have hstep : deliverTicks cfg rc w (d :: rest)
          = deliverTicks cfg rc (Update cfg rc w d).1 rest := by
        simp [deliverTicks, he]
      rw [hstep]
      exact ih _ hi2 hd2

/-- Delivery over a tick sequence split in two: when the first part ends
without a kick, the second part continues from the state it reached. -/
theorem deliverTicks_append (cfg : Config)
    (rc : WardenState → WardenState × List Effect) (pre post : List Nat) :
    ∀ w : WardenState, w._initialized = true → w._dataSent = true →
      (deliverTicks cfg rc w pre).2 = [] →
      deliverTicks cfg rc w (pre ++ post)
        = deliverTicks cfg rc (deliverTicks cfg rc w pre).1 post := by
  induction pre with
  | nil => intro w _ _ _; rfl
  | cons d rest ih =>
    intro w hi hd hnil
    rcases Update_outstanding cfg rc w d hi hd with hk | ⟨he, hi2, hd2⟩
    · simp [deliverTicks, hk, Effect.isKick] at hnil
    · have hstep : ∀ l, deliverTicks cfg rc w (d :: l)
          = deliverTicks cfg rc (Update cfg rc w d).1 l := by
        intro l
        simp [deliverTicks, he]
      rw [List.cons_append, hstep, hstep]
      rw [hstep] at hnil
      exact ih _ hi2 hd2 hnil

/-- Claim C5. While a challenge is outstanding and no message arrives, over
every sequence of ticks delivered to the engine the session is kicked at most
once; and if the response timer is above the configured delay when a tick is
delivered, at the start or after any number of ticks that did not kick, the
session is kicked exactly once, by that tick. Ticks are delivered until the
session is terminated. -/
theorem Update_timeout_kicks_once (cfg : Config)
    (rc : WardenState → WardenState × List Effect) (w : WardenState) (diffs : List Nat)
    (hi : w._initialized = true) (hd : w._dataSent = true) :
    kickCount (deliverTicks cfg rc w diffs).2 ≤ 1
    ∧ banCount (deliverTicks cfg rc w diffs).2 = 0
    ∧ ∀ (pre : List Nat) (d : Nat) (post : List Nat), diffs = pre ++ d :: post →
        0 < cfg.ClientResponseDelay →
        (deliverTicks cfg rc w pre).2 = [] →
        (deliverTicks cfg rc w pre).1._clientResponseTimer
          > (cfg.ClientResponseDelay * IN_MILLISECONDS) % UINT32 →
        (deliverTicks cfg rc w diffs).2 = [Effect.KickPlayer updateKickReason]
        ∧ kickCount (deliverTicks cfg rc w diffs).2 = 1 := by
  refine ⟨?_, ?_, ?_⟩
  · rcases deliverTicks_outstanding cfg rc diffs w hi hd with ⟨h, -, -⟩ | h
    · rw [h]; decide
    · rw [h]; decide
  · rcases deliverTicks_outstanding cfg rc diffs w hi hd with ⟨h, -, -⟩ | h
    · rw [h]; rfl
    · rw [h]; rfl
  · intro pre d post hsplit hD hnil ht
    rcases deliverTicks_outstanding cfg rc pre w hi hd with ⟨-, hi2, hd2⟩ | hk
    · have hkick := Update_timed_out cfg rc (deliverTicks cfg rc w pre).1 d hi2 hd2 hD ht
      have hres : (deliverTicks cfg rc w diffs).2 = [Effect.KickPlayer updateKickReason] := by
        rw [hsplit, deliverTicks_append cfg rc pre (d :: post) w hi hd hnil]
        simp [deliverTicks, hkick, Effect.isKick]
      rw [hres]
      exact ⟨rfl, rfl⟩
    · rw [hk] at hnil
      exact absurd hnil (by simp)

/-- Claim C5 at a timer that is above the delay after one tick: of the four
ticks offered, the second kicks and ends the delivery. -/
theorem Update_timeout_kicks_once_witness :
    challengeSent._initialized = true ∧ challengeSent._dataSent = true
    ∧ [1, 16, 16, 16] = [1] ++ 16 :: [16, 16]
    ∧ 0 < sampleConfig.ClientResponseDelay
    ∧ (deliverTicks sampleConfig sampleRequestChecks challengeSent [1]).2 = []
    ∧ (deliverTicks sampleConfig sampleRequestChecks challengeSent [1]).1._clientResponseTimer
        > (sampleConfig.ClientResponseDelay * IN_MILLISECONDS) % UINT32
    ∧ kickCount (deliverTicks sampleConfig sampleRequestChecks challengeSent [1, 16, 16, 16]).2
        ≤ 1
    ∧ ((deliverTicks sampleConfig sampleRequestChecks challengeSent [1, 16, 16, 16]).2
        = [Effect.KickPlayer updateKickReason]
      ∧ kickCount (deliverTicks sampleConfig sampleRequestChecks challengeSent
          [1, 16, 16, 16]).2 = 1) :=
  ⟨rfl, rfl, rfl, by decide, by decide, by decide,
    (Update_timeout_kicks_once sampleConfig sampleRequestChecks challengeSent [1, 16, 16, 16]
      rfl rfl).1,
    (Update_timeout_kicks_once sampleConfig sampleRequestChecks challengeSent [1, 16, 16, 16]
      rfl rfl).2.2 [1] 16 [16, 16] rfl (by decide) (by decide) (by decide)⟩

/-- Claim C6 as stated fails: with the server-wide default action `Ban`,
`ApplyPenalty` with no check bans the account and does not kick, while the
timeout detected by `Update` kicks the session and bans nobody. -/
theorem Update_timeout_is_not_ApplyPenalty :
    (Update sampleBanConfig sampleRequestChecks timedOut 1).2
      = [Effect.KickPlayer "Warden::Update Warden module response delay exceeded"]
    ∧ (ApplyPenalty sampleBanEnv none).2
      = [Effect.BanAccount "player" 86400 "Warden Anticheat Violation" "Server"]
    ∧ (Update sampleBanConfig sampleRequestChecks timedOut 1).2
      ≠ (ApplyPenalty sampleBanEnv none).2 := by
  decide

/-- Claim C6, amended. A response timeout detected by `Update` always kicks the
session, with the reason `Warden::Update Warden module response delay
exceeded`, whatever the server-wide default action is: the collaborator calls
of the tick are exactly that one kick and no ban. -/
theorem Update_timeout_always_kicks (cfg : Config)
    (rc : WardenState → WardenState × List Effect) (w : WardenState) (diff : Nat)
    (hi : w._initialized = true) (hd : w._dataSent = true)
    (hD : 0 < cfg.ClientResponseDelay)
    (ht : w._clientResponseTimer > (cfg.ClientResponseDelay * IN_MILLISECONDS) % UINT32) :
    (Update cfg rc w diff).2
        = [Effect.KickPlayer "Warden::Update Warden module response delay exceeded"]
    ∧ kickCount (Update cfg rc w diff).2 = 1 ∧ banCount (Update cfg rc w diff).2 = 0 := by
  rw [Update_timed_out cfg rc w diff hi hd hD ht]
  exact ⟨rfl, rfl, rfl⟩

/-- Claim C6, amended, under the default action `Ban`. -/
theorem Update_timeout_always_kicks_witness :
    timedOut._initialized = true ∧ timedOut._dataSent = true
    ∧ 0 < sampleBanConfig.ClientResponseDelay
    ∧ timedOut._clientResponseTimer
        > (sampleBanConfig.ClientResponseDelay * IN_MILLISECONDS) % UINT32
    ∧ ((Update sampleBanConfig sampleRequestChecks timedOut 16).2
        = [Effect.KickPlayer "Warden::Update Warden module response delay exceeded"]
      ∧ kickCount (Update sampleBanConfig sampleRequestChecks timedOut 16).2 = 1
      ∧ banCount (Update sampleBanConfig sampleRequestChecks timedOut 16).2 = 0) :=
  ⟨rfl, rfl, by decide, by decide,
    Update_timeout_always_kicks sampleBanConfig sampleRequestChecks timedOut 16
      rfl rfl (by decide) (by decide)⟩

/-! ## Checksum -/

/-- The word that overlays four bytes of the digest is their little-endian
value. -/
theorem keyData_ints_cons (a b c d i : Nat) (rest : List Nat)
    (ha : a < 256) (hb : b < 256) (hc : c < 256) (hd : d < 256) :
    keyData.ints (a :: b :: c :: d :: rest) 0 = a + 256 * b + 65536 * c + 16777216 * d
    ∧ keyData.ints (a :: b :: c :: d :: rest) (i + 1) = keyData.ints rest i := by
  constructor
  · simp only [keyData.ints, UINT32, Nat.mul_zero, Nat.zero_add, List.getD_cons_zero,
      List.getD_cons_succ]
    omega
  · have e0 : 4 * (i + 1) = 4 * i + 1 + 1 + 1 + 1 := by omega
    have e1 : 4 * (i + 1) + 1 = 4 * i + 1 + 1 + 1 + 1 + 1 := by omega
    have e2 : 4 * (i + 1) + 2 = 4 * i + 2 + 1 + 1 + 1 + 1 := by omega
    have e3 : 4 * (i + 1) + 3 = 4 * i + 3 + 1 + 1 + 1 + 1 := by omega
    simp only [keyData.ints, e0, e1, e2, e3, List.getD_cons_succ]

/-- Claim C7. For every payload `p` shorter than 2^16 bytes whose digest is the
twenty bytes `b0 .. b19`, `BuildChecksum p` is the XOR of the five 32-bit words
made of the digest bytes four by four (the first byte of each group is the low
byte, as on the little-endian hosts the server is built for); for every value
`c`, `IsValidCheckSum c p` is true exactly when `c` is that XOR; and the result
depends on the payload bytes alone: any buffer that starts with the bytes of `p`
gives the same checksum and the same verdict. -/
theorem IsValidCheckSum_iff (SHA1 : List Nat → List Nat) (c : Nat) (p : List Nat)
    (b0 b1 b2 b3 b4 b5 b6 b7 b8 b9 b10 b11 b12 b13 b14 b15 b16 b17 b18 b19 : Nat)
    (hlen : p.length < UINT16)
    (hdigest : SHA1 p
      = [b0, b1, b2, b3, b4, b5, b6, b7, b8, b9, b10, b11, b12, b13, b14, b15, b16, b17,
          b18, b19])
    (hbytes : ∀ b ∈ SHA1 p, b < 256) :
    BuildChecksum SHA1 p p.length
        = (b0 + 256 * b1 + 65536 * b2 + 16777216 * b3)
          ^^^ (b4 + 256 * b5 + 65536 * b6 + 16777216 * b7)
          ^^^ (b8 + 256 * b9 + 65536 * b10 + 16777216 * b11)
          ^^^ (b12 + 256 * b13 + 65536 * b14 + 16777216 * b15)
          ^^^ (b16 + 256 * b17 + 65536 * b18 + 16777216 * b19)
    ∧ (IsValidCheckSum SHA1 c p p.length = true
        ↔ c = (b0 + 256 * b1 + 65536 * b2 + 16777216 * b3)
          ^^^ (b4 + 256 * b5 + 65536 * b6 + 16777216 * b7)
          ^^^ (b8 + 256 * b9 + 65536 * b10 + 16777216 * b11)
          ^^^ (b12 + 256 * b13 + 65536 * b14 + 16777216 * b15)
          ^^^ (b16 + 256 * b17 + 65536 * b18 + 16777216 * b19))
    ∧ ∀ buf : List Nat, buf.take p.length = p →
        BuildChecksum SHA1 buf p.length = BuildChecksum SHA1 p p.length
        ∧ IsValidCheckSum SHA1 c buf p.length = IsValidCheckSum SHA1 c p p.length := by
  rw [hdigest] at hbytes
  simp only [List.mem_cons, List.mem_singleton, List.not_mem_nil, or_false, forall_eq_or_imp,
    forall_eq] at hbytes
  obtain ⟨h0, h1, h2, h3, h4, h5, h6, h7, h8, h9, h10, h11, h12, h13, h14, h15, h16, h17,
    h18, h19⟩ := hbytes
  have hsum : BuildChecksum SHA1 p p.length
        = (b0 + 256 * b1 + 65536 * b2 + 16777216 * b3)
          ^^^ (b4 + 256 * b5 + 65536 * b6 + 16777216 * b7)
          ^^^ (b8 + 256 * b9 + 65536 * b10 + 16777216 * b11)
          ^^^ (b12 + 256 * b13 + 65536 * b14 + 16777216 * b15)
          ^^^ (b16 + 256 * b17 + 65536 * b18 + 16777216 * b19) := by
    simp only [BuildChecksum, List.take_length, hdigest, checksumLoop, Nat.zero_xor]
    have S := fun i => (keyData_ints_cons b0 b1 b2 b3 i
      [b4, b5, b6, b7, b8, b9, b10, b11, b12, b13, b14, b15, b16, b17, b18, b19] h0 h1 h2 h3).2
    have T := fun i => (keyData_ints_cons b4 b5 b6 b7 i
      [b8, b9, b10, b11, b12, b13, b14, b15, b16, b17, b18, b19] h4 h5 h6 h7).2
    have U := fun i => (keyData_ints_cons b8 b9 b10 b11 i
      [b12, b13, b14, b15, b16, b17, b18, b19] h8 h9 h10 h11).2
    have V := fun i => (keyData_ints_cons b12 b13 b14 b15 i [b16, b17, b18, b19] h12 h13 h14 h15).2
    have w0 := (keyData_ints_cons b0 b1 b2 b3 0
      [b4, b5, b6, b7, b8, b9, b10, b11, b12, b13, b14, b15, b16, b17, b18, b19] h0 h1 h2 h3).1
    have w1 := (keyData_ints_cons b4 b5 b6 b7 0
      [b8, b9, b10, b11, b12, b13, b14, b15, b16, b17, b18, b19] h4 h5 h6 h7).1
    have w2 := (keyData_ints_cons b8 b9 b10 b11 0
      [b12, b13, b14, b15, b16, b17, b18, b19] h8 h9 h10 h11).1
    have w3 := (keyData_ints_cons b12 b13 b14 b15 0 [b16, b17, b18, b19] h12 h13 h14 h15).1
    have w4 := (keyData_ints_cons b16 b17 b18 b19 0 [] h16 h17 h18 h19).1
    have k1 := (S 0).trans w1
    have k2 := (S 1).trans ((T 0).trans w2)
    have k3 := (S 2).trans ((T 1).trans ((U 0).trans w3))
    have k4 := (S 3).trans ((T 2).trans ((U 1).trans ((V 0).trans w4)))
    simp only [Nat.zero_add, Nat.reduceAdd] at k1 k2 k3 k4
    rw [w0, k1, k2, k3, k4]
  refine ⟨hsum, ?_, ?_⟩
  · rw [← hsum]
    simp only [IsValidCheckSum, Nat.mod_eq_of_lt hlen]
    by_cases h : c = BuildChecksum SHA1 p p.length <;> simp [h]
  · intro buf hbuf
    have hb : BuildChecksum SHA1 buf p.length = BuildChecksum SHA1 p p.length := by
      simp [BuildChecksum, hbuf]
    refine ⟨hb, ?_⟩
    simp only [IsValidCheckSum, Nat.mod_eq_of_lt hlen, hb]

/-- Claim C7 at a three-byte payload: the checksum 1379875881 folded from its
digest is accepted, the value 5 is rejected. -/
theorem IsValidCheckSum_iff_witness :
    [2, 0, 7].length < UINT16
    ∧ sampleDigest [2, 0, 7]
        = [9, 12, 15, 18, 21, 24, 27, 30, 33, 36, 39, 42, 45, 48, 51, 54, 57, 60, 63, 66]
    ∧ (∀ b ∈ sampleDigest [2, 0, 7], b < 256)
    ∧ BuildChecksum sampleDigest [2, 0, 7] [2, 0, 7].length = 1379875881
    ∧ IsValidCheckSum sampleDigest 1379875881 [2, 0, 7] [2, 0, 7].length = true
    ∧ ¬ IsValidCheckSum sampleDigest 5 [2, 0, 7] [2, 0, 7].length = true :=
  ⟨by decide, by decide, by decide,
    (IsValidCheckSum_iff sampleDigest 1379875881 [2, 0, 7]
      9 12 15 18 21 24 27 30 33 36 39 42 45 48 51 54 57 60 63 66
      (by decide) (by decide) (by decide)).1,
    (IsValidCheckSum_iff sampleDigest 1379875881 [2, 0, 7]
      9 12 15 18 21 24 27 30 33 36 39 42 45 48 51 54 57 60 63 66
      (by decide) (by decide) (by decide)).2.1.2 (by decide),
    fun h => absurd
      ((IsValidCheckSum_iff sampleDigest 5 [2, 0, 7]
        9 12 15 18 21 24 27 30 33 36 39 42 45 48 51 54 57 60 63 66
        (by decide) (by decide) (by decide)).2.1.1 h) (by decide)⟩

/-! ## Penalty engine -/

/-- Claim C8. `ApplyPenalty` acts on the action of the given check, or on the
server-wide default when no check is given, and performs exactly that action:
`Log` calls no collaborator; `Kick` kicks the session once and bans nobody;
`Ban` bans the account once, for the configured duration, and kicks nobody. -/
theorem ApplyPenalty_effect (env : PenaltyEnv) (check : Option WardenCheck) (action : Nat)
    (hact : action = match check with
      | some c => c.Action
      | none => env.cfg.ClientCheckFailAction) :
    (action = WARDEN_ACTION_LOG →
      (ApplyPenalty env check).2 = []
      ∧ kickCount (ApplyPenalty env check).2 = 0 ∧ banCount (ApplyPenalty env check).2 = 0)
    ∧ (action = WARDEN_ACTION_KICK →
      (ApplyPenalty env check).2 = [Effect.KickPlayer "Warden::Penalty"]
      ∧ kickCount (ApplyPenalty env check).2 = 1 ∧ banCount (ApplyPenalty env check).2 = 0)
    ∧ (action = WARDEN_ACTION_BAN →
      (∃ reason, (ApplyPenalty env check).2
        = [Effect.BanAccount env.accountName env.cfg.BanDuration reason "Server"])
      ∧ kickCount (ApplyPenalty env check).2 = 0 ∧ banCount (ApplyPenalty env check).2 = 1) := by
  have hres : resolveAction env check = action := by
    rw [hact]; cases check <;> rfl
  refine ⟨?_, ?_, ?_⟩
  · intro h
    simp [ApplyPenalty, hres, h, WARDEN_ACTION_LOG, WARDEN_ACTION_KICK, WARDEN_ACTION_BAN,
      kickCount, banCount]
  · intro h
    simp [ApplyPenalty, hres, h, WARDEN_ACTION_KICK, kickCount, banCount, Effect.isKick,
      Effect.isBan]
  · intro h
    simp [ApplyPenalty, hres, h, WARDEN_ACTION_KICK, WARDEN_ACTION_BAN, kickCount, banCount,
      Effect.isKick, Effect.isBan]

/-- Claim C8 at a check whose action is `Ban`, under the default action `Log`:
the account is banned once for 86400 seconds and nobody is kicked. -/
theorem ApplyPenalty_effect_witness :
    (WARDEN_ACTION_BAN = match some sampleBanCheck with
      | some c => c.Action
      | none => samplePenaltyEnv.cfg.ClientCheckFailAction)
    ∧ WARDEN_ACTION_BAN = WARDEN_ACTION_BAN
    ∧ ((∃ reason, (ApplyPenalty samplePenaltyEnv (some sampleBanCheck)).2
          = [Effect.BanAccount "player" 86400 reason "Server"])
      ∧ kickCount (ApplyPenalty samplePenaltyEnv (some sampleBanCheck)).2 = 0
      ∧ banCount (ApplyPenalty samplePenaltyEnv (some sampleBanCheck)).2 = 1) :=
  ⟨rfl, rfl,
    (ApplyPenalty_effect samplePenaltyEnv (some sampleBanCheck) WARDEN_ACTION_BAN rfl).2.2 rfl⟩

/-- Claim C9. Whenever `ApplyPenalty` issues a ban, the reason handed to the
ban collaborator is `Warden Anticheat Violation: <Comment> (CheckId: <id>)`,
with the check's comment and its identifier in decimal, when a check is given,
and exactly `Warden Anticheat Violation` when none is given. -/
theorem ApplyPenalty_ban_reason (env : PenaltyEnv) (check : Option WardenCheck)
    (accountName reason author : String) (duration : Nat)
    (hban : Effect.BanAccount accountName duration reason author ∈ (ApplyPenalty env check).2) :
    (∀ c : WardenCheck, check = some c →
      reason = "Warden Anticheat Violation: " ++ c.Comment ++ " (CheckId: "
                  ++ toString c.CheckId ++ ")")
    ∧ (check = none → reason = "Warden Anticheat Violation") := by
  have key : reason = banReason check := by
    unfold ApplyPenalty at hban
    simp only at hban
    split_ifs at hban with h1 h2
    · simp at hban
    · simp only [List.mem_singleton, Effect.BanAccount.injEq] at hban
      exact hban.2.2.1
    · simp at hban
  refine ⟨?_, ?_⟩
  · intro c hc
    rw [key, hc]
    rfl
  · intro hc
    rw [key, hc]
    rfl

/-- Claim C9 at check 1 with comment `Speed hack`: the ban reason ends in
`(CheckId: 1)`. -/
theorem ApplyPenalty_ban_reason_witness :
    Effect.BanAccount "player" 86400 "Warden Anticheat Violation: Speed hack (CheckId: 1)"
        "Server" ∈ (ApplyPenalty samplePenaltyEnv (some sampleBanCheck)).2
    ∧ "Warden Anticheat Violation: Speed hack (CheckId: 1)"
        = "Warden Anticheat Violation: " ++ sampleBanCheck.Comment ++ " (CheckId: "
            ++ toString sampleBanCheck.CheckId ++ ")" :=
  ⟨by decide,
    (ApplyPenalty_ban_reason samplePenaltyEnv (some sampleBanCheck) "player"
      "Warden Anticheat Violation: Speed hack (CheckId: 1)" "Server" 86400 (by decide)).1
      sampleBanCheck rfl⟩

/-! ## Lookup after loading -/

/-- Claim C10. With Warden enabled, for every rule table with unique
identifiers and every row `r` in it, after `LoadWardenChecks` the store size is
the maximum identifier of the table plus one, `r.id` is below it, and
`GetCheckDataById r.id` succeeds with a definition whose `CheckId` is `r.id`
and whose kind is the row's type. -/
theorem LoadWardenChecks_get_check (K : CheckTypes) (cfg : Config) (mgr : WardenCheckMgr)
    (rows : List CheckRow) (r : CheckRow) (hen : cfg.WardenEnabled = true) (hr : r ∈ rows)
    (huniq : (rows.map CheckRow.id).Nodup) :
    (LoadWardenChecks K cfg mgr rows).1.CheckStore.length = maxCheckId rows + 1
    ∧ (∀ q ∈ rows, q.id ≤ maxCheckId rows)
    ∧ (∃ q ∈ rows, q.id = maxCheckId rows)
    ∧ r.id < (LoadWardenChecks K cfg mgr rows).1.CheckStore.length
    ∧ ∃ e, GetCheckDataById (LoadWardenChecks K cfg mgr rows).1 r.id = some e
        ∧ e.CheckId = r.id ∧ e.Type_ = r.type := by
  have hne : rows.isEmpty = false := by
    cases rows with
    | nil => simp at hr
    | cons _ _ => rfl
  have hload : LoadWardenChecks K cfg mgr rows
      = rows.foldl (loadRow K cfg)
          ({ mgr with CheckStore := resize mgr.CheckStore (maxCheckId rows + 1) }, 0) := by
    simp [LoadWardenChecks, hen, hne]
  have hlen : (LoadWardenChecks K cfg mgr rows).1.CheckStore.length = maxCheckId rows + 1 := by
    rw [hload, foldl_loadRow_length]
    exact length_resize _ _
  have hle := le_maxCheckId rows
  have hlt : r.id < (LoadWardenChecks K cfg mgr rows).1.CheckStore.length := by
    rw [hlen]; exact Nat.lt_succ_of_le (hle r hr)
  refine ⟨hlen, hle, maxCheckId_mem rows r hr, hlt, ?_⟩
  obtain ⟨e, he, hid, hty⟩ := foldl_loadRow_get K cfg r rows
    ({ mgr with CheckStore := resize mgr.CheckStore (maxCheckId rows + 1) }, 0) hr huniq
    (by rw [length_resize]; exact Nat.lt_succ_of_le (hle r hr))
  refine ⟨e, ?_, hid, hty⟩
  unfold GetCheckDataById
  rw [if_pos hlt, hload]
  exact he

/-- Claim C10 at a table with the rows 0 and 2, looked up at identifier 2. -/
theorem LoadWardenChecks_get_check_witness :
    sampleConfig.WardenEnabled = true
    ∧ sampleRow2 ∈ [sampleRow, sampleRow2]
    ∧ ([sampleRow, sampleRow2].map CheckRow.id).Nodup
    ∧ ((LoadWardenChecks sampleTypes sampleConfig WardenCheckMgr.new
          [sampleRow, sampleRow2]).1.CheckStore.length = maxCheckId [sampleRow, sampleRow2] + 1
      ∧ (∀ q ∈ [sampleRow, sampleRow2], q.id ≤ maxCheckId [sampleRow, sampleRow2])
      ∧ (∃ q ∈ [sampleRow, sampleRow2], q.id = maxCheckId [sampleRow, sampleRow2])
      ∧ sampleRow2.id < (LoadWardenChecks sampleTypes sampleConfig WardenCheckMgr.new
          [sampleRow, sampleRow2]).1.CheckStore.length
      ∧ ∃ e, GetCheckDataById (LoadWardenChecks sampleTypes sampleConfig WardenCheckMgr.new
          [sampleRow, sampleRow2]).1 sampleRow2.id = some e
          ∧ e.CheckId = sampleRow2.id ∧ e.Type_ = sampleRow2.type) :=
  ⟨rfl, by decide, by decide,
    LoadWardenChecks_get_check sampleTypes sampleConfig WardenCheckMgr.new
      [sampleRow, sampleRow2] sampleRow2 rfl (by decide) (by decide)⟩

end Warden

namespace Warden

/-! ## The id pools -/

/-- With Warden enabled and a table that is not empty, `LoadWardenChecks` is
the resize followed by the loop over the rows. -/
theorem LoadWardenChecks_eq_foldl (K : CheckTypes) (cfg : Config) (mgr : WardenCheckMgr)
    (rows : List CheckRow) (hen : cfg.WardenEnabled = true) (hne : rows ≠ []) :
    LoadWardenChecks K cfg mgr rows
      = rows.foldl (loadRow K cfg)
          ({ mgr with CheckStore := resize mgr.CheckStore (maxCheckId rows + 1) }, 0) := by
  have h : rows.isEmpty = false := by
    cases rows with
    | nil => exact absurd rfl hne
    | cons _ _ => rfl
  simp [LoadWardenChecks, hen, h]

/-- The pools and the result store written by one iteration. -/
theorem loadRow_pools (K : CheckTypes) (cfg : Config) (s : WardenCheckMgr × Nat)
    (row : CheckRow) :
    (loadRow K cfg s row).1.MemChecksIdPool
        = s.1.MemChecksIdPool ++ (if isMemPoolKind K row.type then [row.id] else [])
    ∧ (loadRow K cfg s row).1.OtherChecksIdPool
        = s.1.OtherChecksIdPool ++ (if isMemPoolKind K row.type then [] else [row.id])
    ∧ (loadRow K cfg s row).1.CheckResultStore
        = (if isResultKind K row.type then emplace s.1.CheckResultStore row.id row.result
            else s.1.CheckResultStore) := by
  unfold loadRow isMemPoolKind isResultKind
  simp only [decide_eq_true_eq]
  refine ⟨?_, ?_, ?_⟩ <;> (try split_ifs) <;> simp

/-- The pools after the loop: the identifiers of the rows, in row order, split
by kind and appended to what the pools held. -/
theorem foldl_loadRow_pools (K : CheckTypes) (cfg : Config) (rows : List CheckRow) :
    ∀ s : WardenCheckMgr × Nat,
      (rows.foldl (loadRow K cfg) s).1.MemChecksIdPool
          = s.1.MemChecksIdPool
              ++ (rows.filter (fun r => isMemPoolKind K r.type)).map CheckRow.id
      ∧ (rows.foldl (loadRow K cfg) s).1.OtherChecksIdPool
          = s.1.OtherChecksIdPool
              ++ (rows.filter (fun r => !isMemPoolKind K r.type)).map CheckRow.id := by
  induction rows with
  | nil => intro s; simp
  | cons r rest ih =>
    intro s
    obtain ⟨h1, h2⟩ := ih (loadRow K cfg s r)
    obtain ⟨p1, p2, -⟩ := loadRow_pools K cfg s r
    rw [List.foldl_cons, h1, h2, p1, p2]
    cases hk : isMemPoolKind K r.type <;> simp [List.filter_cons, hk]

/-- Strictly ascending identifiers are unique. -/
theorem nodup_of_ascending (ids : List Nat) (h : ids.Pairwise (· < ·)) : ids.Nodup :=
  List.Pairwise.imp (fun hab => Nat.ne_of_lt hab) h

/-- Claim C11. With Warden enabled, after `LoadWardenChecks` on a table whose
identifiers are unique and come in ascending order (the order of the query),
starting from empty pools: `MemChecksIdPool` and `OtherChecksIdPool` are
disjoint, each is in ascending order, together they hold every identifier of the
table exactly once and nothing else, and the identifier of a row is in
`MemChecksIdPool` exactly when the row's kind is `MEM_CHECK` or `MODULE_CHECK`. -/
theorem LoadWardenChecks_pools_partition (K : CheckTypes) (cfg : Config) (mgr : WardenCheckMgr)
    (rows : List CheckRow) (hen : cfg.WardenEnabled = true)
    (hmem : mgr.MemChecksIdPool = []) (hother : mgr.OtherChecksIdPool = [])
    (hasc : (rows.map CheckRow.id).Pairwise (· < ·)) :
    (∀ i, i ∈ (LoadWardenChecks K cfg mgr rows).1.MemChecksIdPool →
        i ∉ (LoadWardenChecks K cfg mgr rows).1.OtherChecksIdPool)
    ∧ (LoadWardenChecks K cfg mgr rows).1.MemChecksIdPool.Pairwise (· < ·)
    ∧ (LoadWardenChecks K cfg mgr rows).1.OtherChecksIdPool.Pairwise (· < ·)
    ∧ (∀ r ∈ rows, ((LoadWardenChecks K cfg mgr rows).1.MemChecksIdPool
          ++ (LoadWardenChecks K cfg mgr rows).1.OtherChecksIdPool).count r.id = 1)
    ∧ (∀ i ∈ (LoadWardenChecks K cfg mgr rows).1.MemChecksIdPool
          ++ (LoadWardenChecks K cfg mgr rows).1.OtherChecksIdPool, ∃ r ∈ rows, r.id = i)
    ∧ (∀ r ∈ rows, r.id ∈ (LoadWardenChecks K cfg mgr rows).1.MemChecksIdPool
          ↔ (r.type = K.MEM_CHECK ∨ r.type = K.MODULE_CHECK)) := by
  have hnd : (rows.map CheckRow.id).Nodup := nodup_of_ascending _ hasc
  have hinj := List.inj_on_of_nodup_map hnd
  have hpools : (LoadWardenChecks K cfg mgr rows).1.MemChecksIdPool
        = (rows.filter (fun r => isMemPoolKind K r.type)).map CheckRow.id
      ∧ (LoadWardenChecks K cfg mgr rows).1.OtherChecksIdPool
        = (rows.filter (fun r => !isMemPoolKind K r.type)).map CheckRow.id := by
    by_cases hne : rows = []
    · subst hne
      simp [LoadWardenChecks, hmem, hother]
    · rw [LoadWardenChecks_eq_foldl K cfg mgr rows hen hne]
      obtain ⟨h1, h2⟩ := foldl_loadRow_pools K cfg rows
        ({ mgr with CheckStore := resize mgr.CheckStore (maxCheckId rows + 1) }, 0)
      rw [h1, h2]
      simp [hmem, hother]
  obtain ⟨hm, ho⟩ := hpools
  rw [hm, ho]
  have hkind : ∀ r : CheckRow, isMemPoolKind K r.type = true
      ↔ (r.type = K.MEM_CHECK ∨ r.type = K.MODULE_CHECK) := by
    intro r; simp [isMemPoolKind]
  refine ⟨?_, ?_, ?_, ?_, ?_, ?_⟩
  · intro i hi1 hi2
    obtain ⟨r1, hr1, rfl⟩ := List.mem_map.1 hi1
    obtain ⟨r2, hr2, he⟩ := List.mem_map.1 hi2
    rw [List.mem_filter] at hr1 hr2
    have : r2 = r1 := hinj hr2.1 hr1.1 he
    subst this
    simp [hr1.2] at hr2
  · exact List.Pairwise.sublist (List.Sublist.map _ (List.filter_sublist _)) hasc
  · exact List.Pairwise.sublist (List.Sublist.map _ (List.filter_sublist _)) hasc
  · intro r hr
    have hperm : ((rows.filter (fun r => isMemPoolKind K r.type)).map CheckRow.id
        ++ (rows.filter (fun r => !isMemPoolKind K r.type)).map CheckRow.id).Perm
          (rows.map CheckRow.id) := by
      rw [← List.map_append]
      exact List.Perm.map _ (List.filter_append_perm _ _)
    rw [hperm.count_eq]
    exact List.count_eq_one_of_mem hnd (List.mem_map_of_mem _ hr)
  · intro i hi
    rw [List.mem_append] at hi
    rcases hi with hi | hi
    · obtain ⟨r, hr, he⟩ := List.mem_map.1 hi
      exact ⟨r, (List.mem_filter.1 hr).1, he⟩
    · obtain ⟨r, hr, he⟩ := List.mem_map.1 hi
      exact ⟨r, (List.mem_filter.1 hr).1, he⟩
  · intro r hr
    rw [← hkind r]
    constructor
    · intro hi
      obtain ⟨r2, hr2, he⟩ := List.mem_map.1 hi
      rw [List.mem_filter] at hr2
      have : r2 = r := hinj hr2.1 hr he
      subst this
      exact hr2.2
    · intro hk
      exact List.mem_map_of_mem _ (List.mem_filter.2 ⟨hr, hk⟩)

/-- Claim C11 at the table of the memory check 0 and the driver check 2: the
pools are `[0]` and `[2]`. -/
theorem LoadWardenChecks_pools_partition_witness :
    sampleConfig.WardenEnabled = true
    ∧ WardenCheckMgr.new.MemChecksIdPool = []
    ∧ WardenCheckMgr.new.OtherChecksIdPool = []
    ∧ (sampleTable.map CheckRow.id).Pairwise (· < ·)
    ∧ ((∀ i, i ∈ sampleLoaded.MemChecksIdPool → i ∉ sampleLoaded.OtherChecksIdPool)
      ∧ sampleLoaded.MemChecksIdPool.Pairwise (· < ·)
      ∧ sampleLoaded.OtherChecksIdPool.Pairwise (· < ·)
      ∧ (∀ r ∈ sampleTable,
          (sampleLoaded.MemChecksIdPool ++ sampleLoaded.OtherChecksIdPool).count r.id = 1)
      ∧ (∀ i ∈ sampleLoaded.MemChecksIdPool ++ sampleLoaded.OtherChecksIdPool,
          ∃ r ∈ sampleTable, r.id = i)
      ∧ (∀ r ∈ sampleTable, r.id ∈ sampleLoaded.MemChecksIdPool
          ↔ (r.type = sampleTypes.MEM_CHECK ∨ r.type = sampleTypes.MODULE_CHECK)))
    ∧ sampleLoaded.MemChecksIdPool = [0] ∧ sampleLoaded.OtherChecksIdPool = [2] :=
  ⟨rfl, rfl, rfl, by decide,
    LoadWardenChecks_pools_partition sampleTypes sampleConfig WardenCheckMgr.new sampleTable
      rfl rfl rfl (by decide),
    by decide, by decide⟩

end Warden

namespace Warden

/-! ## The expected-result store -/

/-- The lookup `CheckResultStore.find(Id)` on the association list. -/
theorem GetCheckResultById_eq (mgr : WardenCheckMgr) (Id : Nat) :
    GetCheckResultById mgr Id
      = (mgr.CheckResultStore.find? (fun kv => kv.1 == Id)).map (fun kv => kv.2) := rfl

/-- Looking up `id` after `emplace m k v`: an entry already present wins,
otherwise the new pair is found exactly under its own key. -/
theorem find_emplace (m : List (Nat × List Nat)) (k : Nat) (v : List Nat) (id : Nat) :
    ((emplace m k v).find? (fun kv => kv.1 == id)).map (fun kv => kv.2)
      = match (m.find? (fun kv => kv.1 == id)).map (fun kv => kv.2) with
        | some x => some x
        | none => if k = id then some v else none := by
  unfold emplace
  by_cases hany : m.any (fun kv => kv.1 == k) = true
  · rw [if_pos hany]
    cases hf : m.find? (fun kv => kv.1 == id) with
    | some x => rfl
    | none =>
      simp only [Option.map_none']
      by_cases hk : k = id
      · subst hk
        rw [List.any_eq_true] at hany
        obtain ⟨x, hx, hxk⟩ := hany
        rw [List.find?_eq_none] at hf
        exact absurd hxk (hf x hx)
      · rw [if_neg hk]
  · rw [if_neg hany, List.find?_append]
    cases hf : m.find? (fun kv => kv.1 == id) with
    | some x => rfl
    | none =>
      by_cases hk : k = id
      · simp [hk]
      · simp [hk]

/-- The result store after the loop, looked up at `id`: an entry the store held
before wins, otherwise the first row with that identifier and a result kind. -/
theorem foldl_loadRow_result (K : CheckTypes) (cfg : Config) (id : Nat)
    (rows : List CheckRow) :
    ∀ s : WardenCheckMgr × Nat,
      GetCheckResultById (rows.foldl (loadRow K cfg) s).1 id
        = match GetCheckResultById s.1 id with
          | some x => some x
          | none => (rows.find? (fun r => r.id == id && isResultKind K r.type)).map
              CheckRow.result := by
  induction rows with
  | nil =>
    intro s
    cases h : GetCheckResultById s.1 id <;> simp [h]
  | cons r rest ih =>
    intro s
    rw [List.foldl_cons, ih]
    have hstep : GetCheckResultById (loadRow K cfg s r).1 id
        = match GetCheckResultById s.1 id with
          | some x => some x
          | none => if r.id = id ∧ isResultKind K r.type = true then some r.result else none := by
      rw [GetCheckResultById_eq, (loadRow_pools K cfg s r).2.2]
      cases hk : isResultKind K r.type
      · simp only [Bool.false_eq_true, if_false, and_false]
        rw [← GetCheckResultById_eq]
        cases GetCheckResultById s.1 id <;> rfl
      · simp only [if_true, and_true]
        rw [find_emplace, ← GetCheckResultById_eq]
    rw [hstep]
    cases hs : GetCheckResultById s.1 id with
    | some x => rfl
    | none =>
      simp only
      by_cases hc : r.id = id ∧ isResultKind K r.type = true
      · rw [if_pos hc]
        simp [List.find?_cons, hc.1, hc.2]
      · rw [if_neg hc]
        have : (r.id == id && isResultKind K r.type) = false := by
          rw [Bool.and_eq_false_iff]
          by_cases h1 : r.id = id
          · right
            simpa [h1] using hc
          · left
            simpa using h1
        simp [List.find?_cons, this]

/-- Claim C12 as stated fails: after loading the sample table and then a table
that holds only the driver check 2, `GetCheckResultById 0` still succeeds with
the result of the first load, although the table just loaded has no row for
identifier 0. -/
theorem GetCheckResultById_keeps_earlier_result :
    GetCheckResultById
        (LoadWardenChecks sampleTypes sampleConfig sampleLoaded [sampleRow2]).1 0
      = some [222, 173]
    ∧ ¬ ∃ r ∈ [sampleRow2], r.id = 0
        ∧ (r.type = sampleTypes.MPQ_CHECK ∨ r.type = sampleTypes.MEM_CHECK) := by
  decide

/-- Claim C12, amended. With Warden enabled, after `LoadWardenChecks` of a
table with unique identifiers: an identifier whose result the store already
held before the load keeps that result (entries are never overwritten or
removed); for an identifier the store did not hold, `GetCheckResultById`
succeeds exactly when the table has a row for it whose kind is `MPQ_CHECK` or
`MEM_CHECK`, it then returns that row's result column, and for every other such
identifier (other kinds, gaps, out of range) the assertion fails. -/
theorem GetCheckResultById_after_load (K : CheckTypes) (cfg : Config) (mgr : WardenCheckMgr)
    (rows : List CheckRow) (id : Nat) (hen : cfg.WardenEnabled = true)
    (huniq : (rows.map CheckRow.id).Nodup) :
    (∀ old, GetCheckResultById mgr id = some old →
        GetCheckResultById (LoadWardenChecks K cfg mgr rows).1 id = some old)
    ∧ (GetCheckResultById mgr id = none →
        (∀ res, GetCheckResultById (LoadWardenChecks K cfg mgr rows).1 id = some res
          ↔ ∃ r ∈ rows, r.id = id ∧ (r.type = K.MPQ_CHECK ∨ r.type = K.MEM_CHECK)
              ∧ r.result = res)
        ∧ ((¬ ∃ r ∈ rows, r.id = id ∧ (r.type = K.MPQ_CHECK ∨ r.type = K.MEM_CHECK))
            → GetCheckResultById (LoadWardenChecks K cfg mgr rows).1 id = none)) := by
  have hinj := List.inj_on_of_nodup_map huniq
  have hkind : ∀ r : CheckRow, isResultKind K r.type = true
      ↔ (r.type = K.MPQ_CHECK ∨ r.type = K.MEM_CHECK) := by
    intro r; simp [isResultKind]
  have hget : GetCheckResultById (LoadWardenChecks K cfg mgr rows).1 id
      = match GetCheckResultById mgr id with
        | some x => some x
        | none => (rows.find? (fun r => r.id == id && isResultKind K r.type)).map
            CheckRow.result := by
    by_cases hne : rows = []
    · subst hne
      cases h : GetCheckResultById mgr id <;> simp [LoadWardenChecks, h]
    · rw [LoadWardenChecks_eq_foldl K cfg mgr rows hen hne, foldl_loadRow_result]
      rfl
  constructor
  · intro old hold
    rw [hget, hold]
  · intro hnone
    rw [hnone] at hget
    simp only at hget
    have hiff : ∀ res, GetCheckResultById (LoadWardenChecks K cfg mgr rows).1 id = some res
          ↔ ∃ r ∈ rows, r.id = id ∧ (r.type = K.MPQ_CHECK ∨ r.type = K.MEM_CHECK)
              ∧ r.result = res := by
      intro res
      rw [hget]
      constructor
      · intro h
        rw [Option.map_eq_some'] at h
        obtain ⟨r, hr, hres⟩ := h
        have hm := List.mem_of_find?_eq_some hr
        have hp := List.find?_some hr
        simp only [Bool.and_eq_true, beq_iff_eq] at hp
        exact ⟨r, hm, hp.1, (hkind r).1 hp.2, hres⟩
      · rintro ⟨r, hr, hid, hk, hres⟩
        cases hf : rows.find? (fun r => r.id == id && isResultKind K r.type) with
        | none =>
          rw [List.find?_eq_none] at hf
          have := hf r hr
          simp [hid, (hkind r).2 hk] at this
        | some r2 =>
          have hm := List.mem_of_find?_eq_some hf
          have hp := List.find?_some hf
          simp only [Bool.and_eq_true, beq_iff_eq] at hp
          have : r2 = r := hinj hm hr (hp.1.trans hid.symm)
          subst this
          simp [hres]
    refine ⟨hiff, ?_⟩
    intro hno
    cases hg : GetCheckResultById (LoadWardenChecks K cfg mgr rows).1 id with
    | none => rfl
    | some res =>
      obtain ⟨r, hr, hid, hk, -⟩ := (hiff res).1 hg
      exact absurd ⟨r, hr, hid, hk⟩ hno

/-- Claim C12, amended, at the sample table: on the first load the memory check
0 has its result stored and the driver check 2 has none; after a further load
of the table holding only check 2, identifier 0 keeps its result. -/
theorem GetCheckResultById_after_load_witness :
    sampleConfig.WardenEnabled = true
    ∧ (sampleTable.map CheckRow.id).Nodup
    ∧ ([sampleRow2].map CheckRow.id).Nodup
    ∧ GetCheckResultById WardenCheckMgr.new 0 = none
    ∧ GetCheckResultById WardenCheckMgr.new 2 = none
    ∧ GetCheckResultById sampleLoaded 0 = some [222, 173]
    ∧ GetCheckResultById sampleLoaded 2 = none
    ∧ GetCheckResultById
        (LoadWardenChecks sampleTypes sampleConfig sampleLoaded [sampleRow2]).1 0
      = some [222, 173] :=
  ⟨rfl, by decide, by decide, rfl, rfl,
    (((GetCheckResultById_after_load sampleTypes sampleConfig WardenCheckMgr.new sampleTable 0
      rfl (by decide)).2 rfl).1 [222, 173]).2
        ⟨sampleRow, by decide, rfl, Or.inr rfl, rfl⟩,
    ((GetCheckResultById_after_load sampleTypes sampleConfig WardenCheckMgr.new sampleTable 2
      rfl (by decide)).2 rfl).2 (by decide),
    (GetCheckResultById_after_load sampleTypes sampleConfig sampleLoaded [sampleRow2] 0
      rfl (by decide)).1 [222, 173] (by decide)⟩

end Warden

namespace Warden

/-! ## Overrides: skipped rows and accepted rows -/

/-- With Warden enabled `LoadWardenOverrides` is the loop over the rows. -/
theorem LoadWardenOverrides_eq_foldl (cfg : Config) (mgr : WardenCheckMgr)
    (rows : List OverrideRow) (hen : cfg.WardenEnabled = true) :
    LoadWardenOverrides cfg mgr rows
      = rows.foldl overrideRow { mgr := mgr, count := 0, errors := [], outside := [] } := by
  cases rows with
  | nil => simp [LoadWardenOverrides]
  | cons r rest => simp [LoadWardenOverrides, hen]

/-- One iteration reads the repository only: two loop states that agree on the
repository, the count and the writes outside the store still agree after the
same row. -/
theorem overrideRow_congr (s t : OverrideRun) (row : OverrideRow)
    (hm : s.mgr = t.mgr) (hc : s.count = t.count) (ho : s.outside = t.outside) :
    (overrideRow s row).mgr = (overrideRow t row).mgr
    ∧ (overrideRow s row).count = (overrideRow t row).count
    ∧ (overrideRow s row).outside = (overrideRow t row).outside := by
  unfold overrideRow
  simp only [hm, hc, ho]
  split_ifs
  · exact ⟨rfl, rfl, rfl⟩
  · exact ⟨rfl, rfl, rfl⟩
  · cases t.mgr.CheckStore.get? row.wardenId <;> exact ⟨rfl, rfl, rfl⟩

/-- The loop reads the repository only. -/
theorem foldl_overrideRow_congr (rows : List OverrideRow) :
    ∀ s t : OverrideRun, s.mgr = t.mgr → s.count = t.count → s.outside = t.outside →
      (rows.foldl overrideRow s).mgr = (rows.foldl overrideRow t).mgr
      ∧ (rows.foldl overrideRow s).count = (rows.foldl overrideRow t).count
      ∧ (rows.foldl overrideRow s).outside = (rows.foldl overrideRow t).outside := by
  induction rows with
  | nil => intro s t hm hc ho; exact ⟨hm, hc, ho⟩
  | cons r rest ih =>
    intro s t hm hc ho
    obtain ⟨h1, h2, h3⟩ := overrideRow_congr s t r hm hc ho
    exact ih _ _ h1 h2 h3

/-- Claim C13. Rejecting an override row is not fatal and skips only that row:
for all row lists `xs` and `ys` and every row `b` whose action is above
`WARDEN_ACTION_BAN`, `LoadWardenOverrides` on `xs ++ [b] ++ ys` leaves the same
repository, the same applied count and the same writes as on `xs ++ ys`. -/
theorem LoadWardenOverrides_skips_bad_action (cfg : Config) (mgr : WardenCheckMgr) (xs ys : List OverrideRow)
    (b : OverrideRow) (hb : b.action > WARDEN_ACTION_BAN) :
    (LoadWardenOverrides cfg mgr (xs ++ [b] ++ ys)).mgr
        = (LoadWardenOverrides cfg mgr (xs ++ ys)).mgr
    ∧ (LoadWardenOverrides cfg mgr (xs ++ [b] ++ ys)).count
        = (LoadWardenOverrides cfg mgr (xs ++ ys)).count
    ∧ (LoadWardenOverrides cfg mgr (xs ++ [b] ++ ys)).outside
        = (LoadWardenOverrides cfg mgr (xs ++ ys)).outside := by
  by_cases hen : cfg.WardenEnabled = true
  · rw [LoadWardenOverrides_eq_foldl cfg mgr _ hen, LoadWardenOverrides_eq_foldl cfg mgr _ hen]
    simp only [List.foldl_append, List.foldl_cons, List.foldl_nil]
    apply foldl_overrideRow_congr
    · rw [overrideRow_action_out_of_range _ _ hb]
    · rw [overrideRow_action_out_of_range _ _ hb]
    · rw [overrideRow_action_out_of_range _ _ hb]
  · simp [LoadWardenOverrides, hen]

/-- Claim C13 at the row with identifier 1 and action 5, followed by an
override of check 2: entry 1 keeps its action 0 and the later row is applied. -/
theorem LoadWardenOverrides_skips_bad_action_witness :
    ({ wardenId := 1, action := 5 } : OverrideRow).action > WARDEN_ACTION_BAN
    ∧ ((LoadWardenOverrides sampleConfig sampleLoaded
          ([] ++ [{ wardenId := 1, action := 5 }] ++ [{ wardenId := 2, action := 1 }])).mgr
        = (LoadWardenOverrides sampleConfig sampleLoaded
            ([] ++ [{ wardenId := 2, action := 1 }])).mgr
      ∧ (LoadWardenOverrides sampleConfig sampleLoaded
          ([] ++ [{ wardenId := 1, action := 5 }] ++ [{ wardenId := 2, action := 1 }])).count
        = (LoadWardenOverrides sampleConfig sampleLoaded
            ([] ++ [{ wardenId := 2, action := 1 }])).count
      ∧ (LoadWardenOverrides sampleConfig sampleLoaded
          ([] ++ [{ wardenId := 1, action := 5 }] ++ [{ wardenId := 2, action := 1 }])).outside
        = (LoadWardenOverrides sampleConfig sampleLoaded
            ([] ++ [{ wardenId := 2, action := 1 }])).outside)
    ∧ (LoadWardenOverrides sampleConfig sampleLoaded
          [{ wardenId := 1, action := 5 }, { wardenId := 2, action := 1 }]).count = 1
    ∧ ((LoadWardenOverrides sampleConfig sampleLoaded
          [{ wardenId := 1, action := 5 }, { wardenId := 2, action := 1 }]).mgr.CheckStore.map
            WardenCheck.Action) = [0, 0, 1] :=
  ⟨by decide,
    LoadWardenOverrides_skips_bad_action sampleConfig sampleLoaded []
      [{ wardenId := 2, action := 1 }] { wardenId := 1, action := 5 } (by decide),
    by decide, by decide⟩

/-- Claim C16. An accepted override row, with an action up to
`WARDEN_ACTION_BAN` and an identifier below the size of the store, replaces only
the `Action` of the entry with that identifier: the other fields of that entry,
every other entry, the size of the store, the expected-result store and both id
pools are unchanged, and the applied count grows by exactly one (nothing is
logged and nothing is written outside the store). -/
theorem overrideRow_accepted_frame (s : OverrideRun) (row : OverrideRow)
    (ha : row.action ≤ WARDEN_ACTION_BAN) (hid : row.wardenId < s.mgr.CheckStore.length) :
    (∃ old new, s.mgr.CheckStore.get? row.wardenId = some old
        ∧ (overrideRow s row).mgr.CheckStore.get? row.wardenId = some new
        ∧ new = { old with Action := row.action })
    ∧ (∀ j, j ≠ row.wardenId →
        (overrideRow s row).mgr.CheckStore.get? j = s.mgr.CheckStore.get? j)
    ∧ (overrideRow s row).mgr.CheckStore.length = s.mgr.CheckStore.length
    ∧ (overrideRow s row).mgr.CheckResultStore = s.mgr.CheckResultStore
    ∧ (overrideRow s row).mgr.MemChecksIdPool = s.mgr.MemChecksIdPool
    ∧ (overrideRow s row).mgr.OtherChecksIdPool = s.mgr.OtherChecksIdPool
    ∧ (overrideRow s row).count = s.count + 1
    ∧ (overrideRow s row).errors = s.errors
    ∧ (overrideRow s row).outside = s.outside := by
  have h1 : ¬ row.action > WARDEN_ACTION_BAN := by omega
  have h2 : ¬ row.wardenId > s.mgr.CheckStore.length := by omega
  obtain ⟨old, hold⟩ : ∃ old, s.mgr.CheckStore.get? row.wardenId = some old := by
    rw [List.get?_eq_getElem?]
    exact ⟨_, List.getElem?_eq_getElem hid⟩
  have hrow : overrideRow s row
      = { s with
          mgr := { s.mgr with
            CheckStore := s.mgr.CheckStore.set row.wardenId { old with Action := row.action } }
          count := s.count + 1 } := by
    unfold overrideRow
    simp only [h1, h2, if_false, hold]
  rw [hrow]
  refine ⟨⟨old, { old with Action := row.action }, hold, ?_, rfl⟩, ?_, ?_, rfl, rfl, rfl, rfl,
    rfl, rfl⟩
  · simp only [List.get?_eq_getElem?]
    rw [List.getElem?_set_self hid]
  · intro j hj
    simp only [List.get?_eq_getElem?]
    exact List.getElem?_set_ne (Ne.symm hj)
  · simp only [List.length_set]

/-- Claim C16 at the override of check 2 to `Ban` in the sample repository. -/
theorem overrideRow_accepted_frame_witness :
    ({ wardenId := 2, action := 2 } : OverrideRow).action ≤ WARDEN_ACTION_BAN
    ∧ ({ wardenId := 2, action := 2 } : OverrideRow).wardenId
        < ({ mgr := sampleLoaded, count := 0, errors := [], outside := [] } :
            OverrideRun).mgr.CheckStore.length
    ∧ (overrideRow { mgr := sampleLoaded, count := 0, errors := [], outside := [] }
        { wardenId := 2, action := 2 }).count = 0 + 1
    ∧ (overrideRow { mgr := sampleLoaded, count := 0, errors := [], outside := [] }
        { wardenId := 2, action := 2 }).mgr.MemChecksIdPool = sampleLoaded.MemChecksIdPool :=
  ⟨by decide, by decide,
    (overrideRow_accepted_frame { mgr := sampleLoaded, count := 0, errors := [], outside := [] }
      { wardenId := 2, action := 2 } (by decide) (by decide)).2.2.2.2.2.2.1,
    (overrideRow_accepted_frame { mgr := sampleLoaded, count := 0, errors := [], outside := [] }
      { wardenId := 2, action := 2 } (by decide) (by decide)).2.2.2.2.1⟩

end Warden

namespace Warden

/-! ## Inbound dispatch -/

/-- Claim C14. For every inbound packet whose decrypted opcode is none of the
recognised opcodes, and likewise for the opcodes mem-check-result and
module-failed, `HandleData` sends no packet, applies no penalty and leaves the
timers, the flags, the module and the outbound cipher unchanged; only the
inbound cipher has advanced over the bytes of the packet. The case labels of
the `switch` are distinct. -/
theorem HandleData_ignored_opcode {σ : Type} (UpdateData : σ → List Nat → σ × List Nat) (ops : ClientOpcodes)
    (op : Opcodes) (H : Handlers σ) (packet0 : WardenModuleTransfer) (e : Engine σ)
    (buff : List Nat) (opcode : Nat) (rest : List Nat)
    (hdistinct : ops.labels.Nodup)
    (hplain : (UpdateData e._inputCrypto buff).2 = opcode :: rest)
    (hop : opcode ∉ ops.labels ∨ opcode = ops.WARDEN_CMSG_MEM_CHECKS_RESULT
        ∨ opcode = ops.WARDEN_CMSG_MODULE_FAILED) :
    HandleData UpdateData ops op H packet0 e buff
      = some ({ e with _inputCrypto := (UpdateData e._inputCrypto buff).1 }, []) := by
  unfold HandleData
  simp only [hplain]
  simp only [ClientOpcodes.labels, List.nodup_cons, List.mem_cons, List.mem_singleton,
    List.not_mem_nil, not_or, or_false, List.nodup_nil, and_true, not_false_eq_true] at hdistinct hop
  obtain ⟨⟨d12, d13, d14, d15, d16⟩, ⟨d23, d24, d25, d26⟩, ⟨d34, d35, d36⟩, ⟨d45, d46⟩, d56⟩ :=
    hdistinct
  rcases hop with ⟨n1, n2, n3, n4, n5, n6⟩ | rfl | rfl
  · simp [n1, n2, n3, n4, n5, n6]
  · simp [Ne.symm d14, Ne.symm d24, Ne.symm d34]
  · simp [Ne.symm d16, Ne.symm d26, Ne.symm d36, Ne.symm d46, Ne.symm d56]

/-- Claim C14 at a packet whose decrypted opcode is 77. -/
theorem HandleData_ignored_opcode_witness :
    sampleClientOpcodes.labels.Nodup
    ∧ (sampleCipher sampleEngine._inputCrypto [77, 1]).2 = 77 :: [0]
    ∧ (77 ∉ sampleClientOpcodes.labels
        ∨ 77 = sampleClientOpcodes.WARDEN_CMSG_MEM_CHECKS_RESULT
        ∨ 77 = sampleClientOpcodes.WARDEN_CMSG_MODULE_FAILED)
    ∧ HandleData sampleCipher sampleClientOpcodes ⟨2⟩ sampleHandlers ⟨0, 0, []⟩ sampleEngine
        [77, 1]
      = some ({ sampleEngine with
          _inputCrypto := (sampleCipher sampleEngine._inputCrypto [77, 1]).1 }, []) :=
  ⟨by decide, by decide, Or.inl (by decide),
    HandleData_ignored_opcode sampleCipher sampleClientOpcodes ⟨2⟩ sampleHandlers ⟨0, 0, []⟩
      sampleEngine [77, 1] 77 [0] (by decide) (by decide) (Or.inl (by decide))⟩

/-! ## Penalty for an action outside the enum -/

/-- Claim C20. If the resolved action is neither `Kick` nor `Ban`, in
particular if it is none of `Log`, `Kick`, `Ban` (a default action configured as
5, or a check whose `Action` is out of range), `ApplyPenalty` returns the label
`None` and calls no collaborator, no kick and no ban, exactly as it does for a
check whose action is `Log`. -/
theorem ApplyPenalty_unknown_action (env : PenaltyEnv) (check : Option WardenCheck) (action : Nat)
    (hact : action = match check with
      | some c => c.Action
      | none => env.cfg.ClientCheckFailAction)
    (hkick : action ≠ WARDEN_ACTION_KICK) (hban : action ≠ WARDEN_ACTION_BAN) :
    ApplyPenalty env check = ("None", [])
    ∧ kickCount (ApplyPenalty env check).2 = 0 ∧ banCount (ApplyPenalty env check).2 = 0
    ∧ ∀ c : WardenCheck, c.Action = WARDEN_ACTION_LOG →
        ApplyPenalty env check = ApplyPenalty env (some c) := by
  have hres : resolveAction env check = action := by
    rw [hact]; cases check <;> rfl
  have h1 : ApplyPenalty env check = ("None", []) := by
    simp [ApplyPenalty, hres, hkick, hban]
  refine ⟨h1, ?_, ?_, ?_⟩
  · rw [h1]; rfl
  · rw [h1]; rfl
  · intro c hc
    rw [h1]
    simp [ApplyPenalty, resolveAction, hc, WARDEN_ACTION_LOG, WARDEN_ACTION_KICK,
      WARDEN_ACTION_BAN]

/-- Claim C20 at a default action configured as 5 and no check. -/
theorem ApplyPenalty_unknown_action_witness :
    (5 = match (none : Option WardenCheck) with
      | some c => c.Action
      | none => sampleOddEnv.cfg.ClientCheckFailAction)
    ∧ 5 ≠ WARDEN_ACTION_KICK ∧ 5 ≠ WARDEN_ACTION_BAN
    ∧ (ApplyPenalty sampleOddEnv none = ("None", [])
      ∧ kickCount (ApplyPenalty sampleOddEnv none).2 = 0
      ∧ banCount (ApplyPenalty sampleOddEnv none).2 = 0
      ∧ ∀ c : WardenCheck, c.Action = WARDEN_ACTION_LOG →
          ApplyPenalty sampleOddEnv none = ApplyPenalty sampleOddEnv (some c)) :=
  ⟨rfl, by decide, by decide,
    ApplyPenalty_unknown_action sampleOddEnv none 5 rfl (by decide) (by decide)⟩

end Warden

namespace Warden

/-! ## Fragments on the wire -/

/-- The buffer built in one iteration: opcode byte, the burst size in two
little-endian bytes, then the next `burst` bytes of the module. -/
theorem buffer_of_burst (cmd : Nat) (old src : List Nat) (burst : Nat)
    (h : burst ≤ src.length) :
    (WardenModuleTransfer.bytes
        { Command := cmd, DataSize := burst, Data := memcpy old src burst }).take (burst + 3)
      = cmd % 256 :: burst % 256 :: burst / 256 % 256 :: src.take burst := by
  simp only [WardenModuleTransfer.bytes, memcpy]
  have h3 : burst + 3 = (burst + 1 + 1) + 1 := by omega
  rw [h3, List.take_succ_cons, List.take_succ_cons, List.take_succ_cons]
  rw [List.take_append_of_le_length (by simp [List.length_take]; omega)]
  simp

/-- The loop of `sendLoopWire` against the loop of `sendLoop`: the buffers
handed to the cipher are the fragments before encryption, whatever the packet
struct held, and the cipher is applied to them one by one in order. -/
theorem sendLoopWire_spec {σ : Type} (UpdateData : σ → List Nat → σ × List Nat)
    (hcipher : ∀ c b, (UpdateData c b).2.length = b.length)
    (op : Opcodes) (data : List Nat) (hlen : data.length < UINT32) :
    ∀ (sizeLeft : Nat) (packet packet2 : WardenModuleTransfer) (crypto : σ) (pos : Nat),
      pos + sizeLeft = data.length →
      (sendLoopWire UpdateData op data packet crypto sizeLeft pos).encrypted
          = (sendLoop op data packet2 sizeLeft pos).map Fragment.plain
      ∧ (sendLoopWire UpdateData op data packet crypto sizeLeft pos).crypto
          = (encryptInOrder UpdateData crypto
              (sendLoopWire UpdateData op data packet crypto sizeLeft pos).encrypted).1
      ∧ (sendLoopWire UpdateData op data packet crypto sizeLeft pos).sent
          = (encryptInOrder UpdateData crypto
              (sendLoopWire UpdateData op data packet crypto sizeLeft pos).encrypted).2.map
                Effect.SendPacket
      ∧ ∀ buf ∈ (sendLoopWire UpdateData op data packet crypto sizeLeft pos).encrypted,
          ∃ size payload, 0 < size ∧ size ≤ 500 ∧ payload.length = size
            ∧ buf = op.WARDEN_SMSG_MODULE_CACHE % 256 :: size % 256 :: size / 256 % 256
                :: payload := by
  intro sizeLeft
  induction sizeLeft using Nat.strong_induction_on with
  | _ n ih =>
    intro packet packet2 crypto pos hpos
    rw [sendLoopWire, sendLoop]
    by_cases hn : n > 0
    · simp only [hn, dite_true]
      have hb : (if n < 500 then n else 500) % UINT16 = min n 500 := by
        simp only [UINT16]; split <;> omega
      have hs : (n + (UINT32 - min n 500)) % UINT32 = n - min n 500 := by
        simp only [UINT32] at hlen ⊢; omega
      have hp : (pos + min n 500) % UINT32 = pos + min n 500 := by
        simp only [UINT32] at hlen ⊢; omega
      rw [hb, hs, hp]
      have hsrc : min n 500 ≤ (data.drop pos).length := by
        rw [List.length_drop]; omega
      have hbuf1 := buffer_of_burst op.WARDEN_SMSG_MODULE_CACHE packet.Data (data.drop pos)
        (min n 500) hsrc
      have hbuf2 := buffer_of_burst op.WARDEN_SMSG_MODULE_CACHE packet2.Data (data.drop pos)
        (min n 500) hsrc
      have hl : ((data.drop pos).take (min n 500)).length = min n 500 := by
        rw [List.length_take]; exact Nat.min_eq_left hsrc
      obtain ⟨ih1, ih2, ih3, ih4⟩ := ih (n - min n 500) (by omega)
        (WardenModuleTransfer.ofBytes
          ((UpdateData crypto ((WardenModuleTransfer.bytes
              { Command := op.WARDEN_SMSG_MODULE_CACHE, DataSize := min n 500,
                Data := memcpy packet.Data (data.drop pos) (min n 500) }).take
                  (min n 500 + 3))).2
            ++ (WardenModuleTransfer.bytes
              { Command := op.WARDEN_SMSG_MODULE_CACHE, DataSize := min n 500,
                Data := memcpy packet.Data (data.drop pos) (min n 500) }).drop (min n 500 + 3)))
        { Command := op.WARDEN_SMSG_MODULE_CACHE, DataSize := min n 500,
          Data := memcpy packet2.Data (data.drop pos) (min n 500) }
        (UpdateData crypto ((WardenModuleTransfer.bytes
              { Command := op.WARDEN_SMSG_MODULE_CACHE, DataSize := min n 500,
                Data := memcpy packet.Data (data.drop pos) (min n 500) }).take
                  (min n 500 + 3))).1
        (pos + min n 500) (by omega)
      refine ⟨?_, ?_, ?_, ?_⟩
      · simp only [List.map_cons]
        rw [ih1, hbuf1, hbuf2]
      · simp only [encryptInOrder]
        exact ih2
      · simp only [encryptInOrder, List.map_cons]
        rw [← ih3]
        congr 2
        rw [List.take_append_of_le_length (by rw [hcipher, hbuf1]; simp [hl])]
        apply List.take_of_length_le
        rw [hcipher, hbuf1]; simp [hl]
      · intro buf hbuf
        rcases List.mem_cons.1 hbuf with rfl | hbuf
        · refine ⟨min n 500, (data.drop pos).take (min n 500), by omega,
            Nat.min_le_right _ _, hl, hbuf1⟩
        · exact ih4 buf hbuf
    · have h0 : n = 0 := by omega
      subst h0
      simp [encryptInOrder]

/-- Claim C15. Every fragment `SendModuleToClient` emits is, before
encryption, the opcode byte `WARDEN_SMSG_MODULE_CACHE`, the fragment size in two
little-endian bytes and then that many payload bytes, `size + 3` bytes in all.
The buffers handed to the outbound cipher are exactly these fragments, one call
per fragment in sending order, each call continuing from the cipher state the
previous one left, and the packets sent are the outputs of these calls in the
same order. The cipher keeps the length of what it transforms. -/
theorem SendModuleToClientWire_fragment_layout {σ : Type} (UpdateData : σ → List Nat → σ × List Nat)
    (hcipher : ∀ c b, (UpdateData c b).2.length = b.length)
    (op : Opcodes) (data : List Nat) (packet0 : WardenModuleTransfer) (crypto : σ)
    (h32 : data.length < UINT32) :
    (SendModuleToClientWire UpdateData op
        { CompressedData := data, CompressedSize := data.length } packet0 crypto).encrypted
      = (SendModuleToClient op { CompressedData := data, CompressedSize := data.length }
          packet0).map Fragment.plain
    ∧ (∀ buf ∈ (SendModuleToClientWire UpdateData op
          { CompressedData := data, CompressedSize := data.length } packet0 crypto).encrypted,
        ∃ size payload, 0 < size ∧ size ≤ 500 ∧ payload.length = size
          ∧ buf = op.WARDEN_SMSG_MODULE_CACHE % 256 :: size % 256 :: size / 256 % 256 :: payload
          ∧ buf.length = size + 3
          ∧ buf.getD 1 0 + 256 * buf.getD 2 0 = size)
    ∧ (SendModuleToClientWire UpdateData op
        { CompressedData := data, CompressedSize := data.length } packet0 crypto).crypto
      = (encryptInOrder UpdateData crypto
          (SendModuleToClientWire UpdateData op
            { CompressedData := data, CompressedSize := data.length } packet0
              crypto).encrypted).1
    ∧ (SendModuleToClientWire UpdateData op
        { CompressedData := data, CompressedSize := data.length } packet0 crypto).sent
      = (encryptInOrder UpdateData crypto
          (SendModuleToClientWire UpdateData op
            { CompressedData := data, CompressedSize := data.length } packet0
              crypto).encrypted).2.map Effect.SendPacket := by
  obtain ⟨h1, h2, h3, h4⟩ := sendLoopWire_spec UpdateData hcipher op data h32 data.length
    packet0 packet0 crypto 0 (by omega)
  unfold SendModuleToClientWire SendModuleToClient
  simp only [Nat.mod_eq_of_lt h32]
  refine ⟨h1, ?_, h2, h3⟩
  intro buf hbuf
  obtain ⟨size, payload, hpos, hle, hpl, hb⟩ := h4 buf hbuf
  refine ⟨size, payload, hpos, hle, hpl, hb, ?_, ?_⟩
  · rw [hb]; simp [hpl]
  · rw [hb]
    simp only [List.getD_cons_succ, List.getD_cons_zero]
    omega

/-- The stand-in cipher keeps the length of its input. -/
theorem sampleCipher_length (c : Nat) (b : List Nat) : (sampleCipher c b).2.length = b.length := by
  simp [sampleCipher]

/-- Claim C15 at a module of 1203 bytes. -/
theorem SendModuleToClientWire_fragment_layout_witness :
    (∀ c b, (sampleCipher c b).2.length = b.length)
    ∧ (List.replicate 1203 7).length < UINT32
    ∧ ((SendModuleToClientWire sampleCipher ⟨2⟩
          { CompressedData := List.replicate 1203 7,
            CompressedSize := (List.replicate 1203 7).length } ⟨0, 0, []⟩ 0).encrypted
        = (SendModuleToClient ⟨2⟩
            { CompressedData := List.replicate 1203 7,
              CompressedSize := (List.replicate 1203 7).length } ⟨0, 0, []⟩).map Fragment.plain
      ∧ (∀ buf ∈ (SendModuleToClientWire sampleCipher ⟨2⟩
            { CompressedData := List.replicate 1203 7,
              CompressedSize := (List.replicate 1203 7).length } ⟨0, 0, []⟩ 0).encrypted,
          ∃ size payload, 0 < size ∧ size ≤ 500 ∧ payload.length = size
            ∧ buf = (Opcodes.mk 2).WARDEN_SMSG_MODULE_CACHE % 256 :: size % 256
                :: size / 256 % 256 :: payload
            ∧ buf.length = size + 3
            ∧ buf.getD 1 0 + 256 * buf.getD 2 0 = size)
      ∧ (SendModuleToClientWire sampleCipher ⟨2⟩
          { CompressedData := List.replicate 1203 7,
            CompressedSize := (List.replicate 1203 7).length } ⟨0, 0, []⟩ 0).crypto
        = (encryptInOrder sampleCipher 0
            (SendModuleToClientWire sampleCipher ⟨2⟩
              { CompressedData := List.replicate 1203 7,
                CompressedSize := (List.replicate 1203 7).length } ⟨0, 0, []⟩ 0).encrypted).1
      ∧ (SendModuleToClientWire sampleCipher ⟨2⟩
          { CompressedData := List.replicate 1203 7,
            CompressedSize := (List.replicate 1203 7).length } ⟨0, 0, []⟩ 0).sent
        = (encryptInOrder sampleCipher 0
            (SendModuleToClientWire sampleCipher ⟨2⟩
              { CompressedData := List.replicate 1203 7,
                CompressedSize := (List.replicate 1203 7).length } ⟨0, 0, []⟩
                  0).encrypted).2.map Effect.SendPacket) :=
  have h : (List.replicate 1203 7).length < UINT32 := by
    rw [List.length_replicate]; decide
  ⟨sampleCipher_length, h,
    SendModuleToClientWire_fragment_layout sampleCipher sampleCipher_length ⟨2⟩
      (List.replicate 1203 7) ⟨0, 0, []⟩ 0 h⟩

end Warden

namespace Warden

/-! ## Payload of a stored definition -/

/-- The object one iteration copies into the store: the action is the default,
a payload field the row's kind carries is the row's, and a payload field the
kind does not carry is the one `wardenCheck` held before the row. -/
theorem loadRow_store_payload (K : CheckTypes) (cfg : Config) (s : WardenCheckMgr × Nat)
    (row : CheckRow) :
    ∃ wc : WardenCheck, (loadRow K cfg s row).1.CheckStore = s.1.CheckStore.set row.id wc
      ∧ wc.Action = cfg.ClientCheckFailAction
      ∧ wc.Data = (if row.type = K.PAGE_CHECK_A ∨ row.type = K.PAGE_CHECK_B
            ∨ row.type = K.DRIVER_CHECK then row.data else s.1.wardenCheck.Data)
      ∧ wc.Address = (if row.type = K.MEM_CHECK ∨ row.type = K.PAGE_CHECK_A
            ∨ row.type = K.PAGE_CHECK_B ∨ row.type = K.PROC_CHECK then row.address
            else s.1.wardenCheck.Address)
      ∧ wc.Length = (if row.type = K.MEM_CHECK ∨ row.type = K.PAGE_CHECK_A
            ∨ row.type = K.PAGE_CHECK_B ∨ row.type = K.PROC_CHECK then row.length
            else s.1.wardenCheck.Length)
      ∧ wc.Str = (if row.type = K.MEM_CHECK ∨ row.type = K.MPQ_CHECK
            ∨ row.type = K.LUA_STR_CHECK ∨ row.type = K.DRIVER_CHECK
            ∨ row.type = K.MODULE_CHECK then row.str else s.1.wardenCheck.Str) := by
  unfold loadRow
  simp only
  refine ⟨_, rfl, ?_, ?_, ?_, ?_, ?_⟩ <;> split_ifs <;> rfl

/-- In a table of unique identifiers, whatever one iteration guarantees about
the object it stores for its row holds of that row's entry after the loop. -/
theorem foldl_loadRow_get_of (K : CheckTypes) (cfg : Config)
    (P : CheckRow → WardenCheck → Prop)
    (hP : ∀ (s : WardenCheckMgr × Nat) (row : CheckRow),
      ∃ wc, (loadRow K cfg s row).1.CheckStore = s.1.CheckStore.set row.id wc ∧ P row wc)
    (r : CheckRow) (rows : List CheckRow) :
    ∀ s : WardenCheckMgr × Nat, r ∈ rows → (rows.map CheckRow.id).Nodup →
      r.id < s.1.CheckStore.length →
      ∃ e, (rows.foldl (loadRow K cfg) s).1.CheckStore.get? r.id = some e ∧ P r e := by
  induction rows with
  | nil => intro s h; simp at h
  | cons q rest ih =>
    intro s hmem hnd hlt
    rw [List.map_cons, List.nodup_cons] at hnd
    rw [List.foldl_cons]
    rcases List.mem_cons.1 hmem with rfl | hin
    · have hother : ∀ x ∈ rest, x.id ≠ r.id := by
        intro x hx hxe
        exact hnd.1 (hxe ▸ List.mem_map_of_mem CheckRow.id hx)
      rw [foldl_loadRow_get_other K cfg r.id rest _ hother]
      obtain ⟨wc, hset, hp⟩ := hP s r
      refine ⟨wc, ?_, hp⟩
      rw [hset]
      simp only [List.get?_eq_getElem?]
      rw [List.getElem?_set_self hlt]
    · exact ih _ hin hnd.2 (by rw [loadRow_length]; exact hlt)

/-- The part of the payload claim that holds: with Warden enabled and unique
identifiers, the stored definition of a row has the default action and, for
each payload field the row's kind carries, the row's value. -/
theorem LoadWardenChecks_payload_carried (K : CheckTypes) (cfg : Config)
    (mgr : WardenCheckMgr) (rows : List CheckRow) (r : CheckRow)
    (hen : cfg.WardenEnabled = true) (hr : r ∈ rows)
    (huniq : (rows.map CheckRow.id).Nodup) :
    ∃ e, GetCheckDataById (LoadWardenChecks K cfg mgr rows).1 r.id = some e
      ∧ e.Action = cfg.ClientCheckFailAction
      ∧ ((r.type = K.PAGE_CHECK_A ∨ r.type = K.PAGE_CHECK_B ∨ r.type = K.DRIVER_CHECK) →
          e.Data = r.data)
      ∧ ((r.type = K.MEM_CHECK ∨ r.type = K.PAGE_CHECK_A ∨ r.type = K.PAGE_CHECK_B
            ∨ r.type = K.PROC_CHECK) → e.Address = r.address ∧ e.Length = r.length)
      ∧ ((r.type = K.MEM_CHECK ∨ r.type = K.MPQ_CHECK ∨ r.type = K.LUA_STR_CHECK
            ∨ r.type = K.DRIVER_CHECK ∨ r.type = K.MODULE_CHECK) → e.Str = r.str) := by
  have hne : rows ≠ [] := by
    intro h; rw [h] at hr; simp at hr
  have hle := le_maxCheckId rows r hr
  have hlen : (LoadWardenChecks K cfg mgr rows).1.CheckStore.length = maxCheckId rows + 1 := by
    rw [LoadWardenChecks_eq_foldl K cfg mgr rows hen hne, foldl_loadRow_length]
    exact length_resize _ _
  obtain ⟨e, he, hp⟩ := foldl_loadRow_get_of K cfg
    (fun row wc => wc.Action = cfg.ClientCheckFailAction
      ∧ ((row.type = K.PAGE_CHECK_A ∨ row.type = K.PAGE_CHECK_B ∨ row.type = K.DRIVER_CHECK) →
          wc.Data = row.data)
      ∧ ((row.type = K.MEM_CHECK ∨ row.type = K.PAGE_CHECK_A ∨ row.type = K.PAGE_CHECK_B
            ∨ row.type = K.PROC_CHECK) → wc.Address = row.address ∧ wc.Length = row.length)
      ∧ ((row.type = K.MEM_CHECK ∨ row.type = K.MPQ_CHECK ∨ row.type = K.LUA_STR_CHECK
            ∨ row.type = K.DRIVER_CHECK ∨ row.type = K.MODULE_CHECK) → wc.Str = row.str))
    (by
      intro s row
      obtain ⟨wc, hset, ha, hd, haddr, hl, hs⟩ := loadRow_store_payload K cfg s row
      refine ⟨wc, hset, ha, ?_, ?_, ?_⟩
      · intro h; rw [hd, if_pos h]
      · intro h; rw [haddr, hl, if_pos h, if_pos h]; exact ⟨rfl, rfl⟩
      · intro h; rw [hs, if_pos h])
    r rows ({ mgr with CheckStore := resize mgr.CheckStore (maxCheckId rows + 1) }, 0) hr huniq
    (by rw [length_resize]; omega)
  refine ⟨e, ?_, hp⟩
  unfold GetCheckDataById
  rw [if_pos (by rw [hlen]; omega), LoadWardenChecks_eq_foldl K cfg mgr rows hen hne]
  exact he

/-- Claim C17, the code at the failing input. After loading the page check 0
(data `[1, 2, 3]`, address 4096, length 6) and then the Lua string check 1,
whose kind carries neither data nor address nor length, the stored definition
of check 1 has the data, the address and the length of check 0: the object
copied into the store is shared by all rows and keeps what an earlier row
wrote. -/
theorem LoadWardenChecks_payload_left_over :
    (GetCheckDataById
        (LoadWardenChecks sampleTypes sampleConfig WardenCheckMgr.new
          [samplePageRow, sampleLuaRow]).1 1).map
      (fun e => (e.Type_, e.Data, e.Address, e.Length, e.Str))
      = some (139, [1, 2, 3], 4096, 6, "SomeAddon")
    ∧ sampleLuaRow.type = sampleTypes.LUA_STR_CHECK
    ∧ samplePageRow.data = [1, 2, 3] ∧ samplePageRow.address = 4096
    ∧ samplePageRow.length = 6 := by
  decide

/-! ## Idle ticks -/

/-- Claim C18. For an initialised engine with no challenge outstanding and a
check timer in `uint32` range: if `diff` is at least the check timer, `Update`
is exactly the call of `RequestChecks`; otherwise `RequestChecks` is not called
and `Update` only decreases the check timer by exactly `diff`, leaving it
strictly positive, with no collaborator call, no kick and the response timer
unchanged. -/
theorem Update_idle_tick (cfg : Config) (rc : WardenState → WardenState × List Effect)
    (w : WardenState) (diff : Nat)
    (hi : w._initialized = true) (hd : w._dataSent = false)
    (ht : w._checkTimer < UINT32) :
    (diff ≥ w._checkTimer → Update cfg rc w diff = rc w)
    ∧ (diff < w._checkTimer →
        Update cfg rc w diff = ({ w with _checkTimer := w._checkTimer - diff }, [])
        ∧ 0 < w._checkTimer - diff
        ∧ (w._checkTimer - diff) + diff = w._checkTimer
        ∧ kickCount (Update cfg rc w diff).2 = 0
        ∧ (Update cfg rc w diff).1._clientResponseTimer = w._clientResponseTimer) := by
  constructor
  · intro h
    simp [Update, hi, hd, h]
  · intro h
    have hsub : subU32 w._checkTimer diff = w._checkTimer - diff := by
      simp only [subU32, UINT32] at ht ⊢
      omega
    have hU : Update cfg rc w diff = ({ w with _checkTimer := w._checkTimer - diff }, []) := by
      simp [Update, hi, hd, Nat.not_le.2 h, hsub]
    rw [hU]
    refine ⟨rfl, by omega, by omega, rfl, rfl⟩

/-- Claim C18 at a check timer of 5000 ms and a tick of 16 ms. -/
theorem Update_idle_tick_witness :
    idleEngine._initialized = true ∧ idleEngine._dataSent = false
    ∧ idleEngine._checkTimer < UINT32
    ∧ 16 < idleEngine._checkTimer
    ∧ (Update sampleConfig sampleRequestChecks idleEngine 16
          = ({ idleEngine with _checkTimer := idleEngine._checkTimer - 16 }, [])
      ∧ 0 < idleEngine._checkTimer - 16
      ∧ (idleEngine._checkTimer - 16) + 16 = idleEngine._checkTimer
      ∧ kickCount (Update sampleConfig sampleRequestChecks idleEngine 16).2 = 0
      ∧ (Update sampleConfig sampleRequestChecks idleEngine 16).1._clientResponseTimer
          = idleEngine._clientResponseTimer) :=
  ⟨rfl, rfl, by decide, by decide,
    (Update_idle_tick sampleConfig sampleRequestChecks idleEngine 16 rfl rfl (by decide)).2
      (by decide)⟩

/-! ## Reloading -/

/-- A key stays in the result store through `emplace`, and the emplaced key is
in it afterwards. -/
theorem any_emplace (m : List (Nat × List Nat)) (k : Nat) (v : List Nat) :
    (emplace m k v).any (fun kv => kv.1 == k) = true
    ∧ ∀ j, m.any (fun kv => kv.1 == j) = true →
        (emplace m k v).any (fun kv => kv.1 == j) = true := by
  unfold emplace
  by_cases hany : m.any (fun kv => kv.1 == k) = true
  · simp only [if_pos hany]
    exact ⟨hany, fun j hj => hj⟩
  · simp only [if_neg hany]
    constructor
    · simp
    · intro j hj
      rw [List.any_append, hj]; rfl

/-- After the loop every row of a result kind has its identifier in the result
store, and keys the store held are still there. -/
theorem foldl_loadRow_keys (K : CheckTypes) (cfg : Config) (rows : List CheckRow) :
    ∀ s : WardenCheckMgr × Nat,
      (∀ j, s.1.CheckResultStore.any (fun kv => kv.1 == j) = true →
        (rows.foldl (loadRow K cfg) s).1.CheckResultStore.any (fun kv => kv.1 == j) = true)
      ∧ ∀ r ∈ rows, isResultKind K r.type = true →
        (rows.foldl (loadRow K cfg) s).1.CheckResultStore.any (fun kv => kv.1 == r.id)
          = true := by
  induction rows with
  | nil => intro s; simp
  | cons q rest ih =>
    intro s
    obtain ⟨ih1, ih2⟩ := ih (loadRow K cfg s q)
    have hq := (loadRow_pools K cfg s q).2.2
    rw [List.foldl_cons]
    constructor
    · intro j hj
      apply ih1
      rw [hq]
      split_ifs
      · exact (any_emplace _ _ _).2 j hj
      · exact hj
    · intro r hr hk
      rcases List.mem_cons.1 hr with rfl | hin
      · apply ih1
        rw [hq, if_pos hk]
        exact (any_emplace _ _ _).1
      · exact ih2 r hin hk

/-- A loop over rows whose result-kind identifiers are all in the result store
already leaves the result store as it is. -/
theorem foldl_loadRow_result_fixed (K : CheckTypes) (cfg : Config) (rows : List CheckRow) :
    ∀ s : WardenCheckMgr × Nat,
      (∀ r ∈ rows, isResultKind K r.type = true →
        s.1.CheckResultStore.any (fun kv => kv.1 == r.id) = true) →
      (rows.foldl (loadRow K cfg) s).1.CheckResultStore = s.1.CheckResultStore := by
  induction rows with
  | nil => intro s _; rfl
  | cons q rest ih =>
    intro s h
    have hq : (loadRow K cfg s q).1.CheckResultStore = s.1.CheckResultStore := by
      rw [(loadRow_pools K cfg s q).2.2]
      split_ifs with hk
      · unfold emplace
        rw [if_pos (h q (List.mem_cons_self _ _) hk)]
      · rfl
    rw [List.foldl_cons, ih, hq]
    intro r hr hk
    rw [hq]
    exact h r (List.mem_cons_of_mem _ hr) hk

/-- Claim C19 as stated fails: a second `LoadWardenChecks` on the same one-row
table leaves `MemChecksIdPool` as `[0, 0]`, not as the `[0]` of a single run. -/
theorem LoadWardenChecks_reload_doubles_pools :
    (LoadWardenChecks sampleTypes sampleConfig WardenCheckMgr.new [sampleRow]).1.MemChecksIdPool
      = [0]
    ∧ (LoadWardenChecks sampleTypes sampleConfig
        (LoadWardenChecks sampleTypes sampleConfig WardenCheckMgr.new [sampleRow]).1
        [sampleRow]).1.MemChecksIdPool = [0, 0]
    ∧ (LoadWardenChecks sampleTypes sampleConfig
        (LoadWardenChecks sampleTypes sampleConfig WardenCheckMgr.new [sampleRow]).1
        [sampleRow]).1.MemChecksIdPool
      ≠ (LoadWardenChecks sampleTypes sampleConfig WardenCheckMgr.new
          [sampleRow]).1.MemChecksIdPool := by
  decide

/-- Claim C19, amended. With Warden enabled, running `LoadWardenChecks` twice
in succession on the same table leaves the same expected-result store and the
same size of the check store as running it once, while each id pool holds the
pool of a single run followed once more by the table's identifiers of its
kinds: the pools are appended to, never cleared. -/
theorem LoadWardenChecks_reload (K : CheckTypes) (cfg : Config) (mgr : WardenCheckMgr) (rows : List CheckRow)
    (hen : cfg.WardenEnabled = true) :
    (LoadWardenChecks K cfg (LoadWardenChecks K cfg mgr rows).1 rows).1.CheckResultStore
        = (LoadWardenChecks K cfg mgr rows).1.CheckResultStore
    ∧ (LoadWardenChecks K cfg (LoadWardenChecks K cfg mgr rows).1 rows).1.CheckStore.length
        = (LoadWardenChecks K cfg mgr rows).1.CheckStore.length
    ∧ (LoadWardenChecks K cfg (LoadWardenChecks K cfg mgr rows).1 rows).1.MemChecksIdPool
        = (LoadWardenChecks K cfg mgr rows).1.MemChecksIdPool
            ++ (rows.filter (fun r => isMemPoolKind K r.type)).map CheckRow.id
    ∧ (LoadWardenChecks K cfg (LoadWardenChecks K cfg mgr rows).1 rows).1.OtherChecksIdPool
        = (LoadWardenChecks K cfg mgr rows).1.OtherChecksIdPool
            ++ (rows.filter (fun r => !isMemPoolKind K r.type)).map CheckRow.id
    ∧ (LoadWardenChecks K cfg mgr rows).1.MemChecksIdPool
        = mgr.MemChecksIdPool
            ++ (rows.filter (fun r => isMemPoolKind K r.type)).map CheckRow.id
    ∧ (LoadWardenChecks K cfg mgr rows).1.OtherChecksIdPool
        = mgr.OtherChecksIdPool
            ++ (rows.filter (fun r => !isMemPoolKind K r.type)).map CheckRow.id := by
  by_cases hne : rows = []
  · subst hne
    simp [LoadWardenChecks]
  · have hpool : ∀ m : WardenCheckMgr,
        (LoadWardenChecks K cfg m rows).1.MemChecksIdPool
          = m.MemChecksIdPool
              ++ (rows.filter (fun r => isMemPoolKind K r.type)).map CheckRow.id
        ∧ (LoadWardenChecks K cfg m rows).1.OtherChecksIdPool
          = m.OtherChecksIdPool
              ++ (rows.filter (fun r => !isMemPoolKind K r.type)).map CheckRow.id := by
      intro m
      rw [LoadWardenChecks_eq_foldl K cfg m rows hen hne]
      exact foldl_loadRow_pools K cfg rows _
    have hlen : ∀ m : WardenCheckMgr,
        (LoadWardenChecks K cfg m rows).1.CheckStore.length = maxCheckId rows + 1 := by
      intro m
      rw [LoadWardenChecks_eq_foldl K cfg m rows hen hne, foldl_loadRow_length]
      exact length_resize _ _
    refine ⟨?_, ?_, (hpool _).1, (hpool _).2, (hpool mgr).1, (hpool mgr).2⟩
    · have hkeys : ∀ r ∈ rows, isResultKind K r.type = true →
          (LoadWardenChecks K cfg mgr rows).1.CheckResultStore.any (fun kv => kv.1 == r.id)
            = true := by
        rw [LoadWardenChecks_eq_foldl K cfg mgr rows hen hne]
        exact (foldl_loadRow_keys K cfg rows _).2
      rw [LoadWardenChecks_eq_foldl K cfg (LoadWardenChecks K cfg mgr rows).1 rows hen hne]
      exact foldl_loadRow_result_fixed K cfg rows
        ({ (LoadWardenChecks K cfg mgr rows).1 with
            CheckStore := resize (LoadWardenChecks K cfg mgr rows).1.CheckStore
              (maxCheckId rows + 1) }, 0) hkeys
    · rw [hlen, hlen]

/-- Claim C19, amended, at the sample table. -/
theorem LoadWardenChecks_reload_witness :
    sampleConfig.WardenEnabled = true
    ∧ (LoadWardenChecks sampleTypes sampleConfig sampleLoaded sampleTable).1.CheckResultStore
        = sampleLoaded.CheckResultStore
    ∧ (LoadWardenChecks sampleTypes sampleConfig sampleLoaded sampleTable).1.MemChecksIdPool
        = sampleLoaded.MemChecksIdPool
            ++ (sampleTable.filter (fun r => isMemPoolKind sampleTypes r.type)).map CheckRow.id :=
  ⟨rfl,
    (LoadWardenChecks_reload sampleTypes sampleConfig WardenCheckMgr.new sampleTable rfl).1,
    (LoadWardenChecks_reload sampleTypes sampleConfig WardenCheckMgr.new sampleTable rfl).2.2.1⟩

end Warden
